import Mathlib

/-!
Cellular Automata 3D: the simulation core of `main.cpp`.

A shallow embedding of the cellular-automaton part of `main.cpp`
(`InitCA`, `ProcessCA`, `Swap` and the globals `mat1`, `mat2`, `Rule`),
followed by the properties proved about it.

Modelling choices.
* `int` is `Int`.  The only arithmetic on cell values is `mat2[x][y][z]--`
  on a value `> 0` and `Count++` on counters bounded by 6, 12 and 8, so no
  operation of the source can overflow a 32-bit `int`.
* `std::vector<T>` is `List T`; `operator[]` with an `int` index is the
  `Option`-returning `vecGet?` / `vecSet?`: an index below 0 or not below the
  length gives `none`, and every function that indexes returns `Option`.
* `int Rule[5][7][13][9]` is a list of five 7 x 13 x 9 grids, indexed with the
  same checked access.
* A counted loop `for (int i = lo; i <= hi; i++)` whose body does not assign
  `i` is `forRange lo hi`, which runs the body at `lo, lo+1, ..., hi` in order.
-/

namespace CA3D

/-! ## Data model -/

/-- The constant `GridX` of the source. -/
def GridX : Int := 50

/-- The constant `GridY` of the source. -/
def GridY : Int := 50

/-- The constant `GridZ` of the source. -/
def GridZ : Int := 50

/-- The type of `mat1` and `mat2`: `std::vector<std::vector<std::vector<int>>>`,
indexed as `mat[x][y][z]`. -/
abbrev Grid := List (List (List Int))

/-- The type of `Rule`: `int Rule[5][7][13][9]`, indexed as
`Rule[state][face][edge][corner]`. -/
abbrev RuleTable := List Grid

/-- Checked read `v[i]` with an `int` index. -/
def vecGet? {α : Type} (v : List α) (i : Int) : Option α :=
  if 0 ≤ i then v[i.toNat]? else none

/-- Checked write `v[i] = a` with an `int` index. -/
def vecSet? {α : Type} (v : List α) (i : Int) (a : α) : Option (List α) :=
  if 0 ≤ i ∧ i.toNat < v.length then some (v.set i.toNat a) else none

/-- The call `v.resize(n, a)`: keeps the first `n` elements and pads with
copies of `a` up to length `n`. -/
def vecResize {α : Type} (v : List α) (n : Nat) (a : α) : List α :=
  v.take n ++ List.replicate (n - v.length) a

/-- Checked read `g[x][y][z]`. -/
def Grid.get? (g : Grid) (x y z : Int) : Option Int :=
  (vecGet? g x).bind fun p => (vecGet? p y).bind fun r => vecGet? r z

/-- Checked write `g[x][y][z] = v`. -/
def Grid.set? (g : Grid) (x y z : Int) (v : Int) : Option Grid :=
  (vecGet? g x).bind fun p => (vecGet? p y).bind fun r =>
    (vecSet? r z v).bind fun r1 => (vecSet? p y r1).bind fun p1 => vecSet? g x p1

/-- Checked read `Rule[s][f][e][c]`. -/
def RuleTable.get? (R : RuleTable) (s f e c : Int) : Option Int :=
  (vecGet? R s).bind fun g => g.get? f e c

/-- Checked write `Rule[s][f][e][c] = v`. -/
def RuleTable.set? (R : RuleTable) (s f e c : Int) (v : Int) : Option RuleTable :=
  (vecGet? R s).bind fun g => (g.set? f e c v).bind fun g1 => vecSet? R s g1

/-- The global simulation state: the two buffers and the rule table. -/
structure State where
  /-- The global `mat1`: the buffer that is read and drawn. -/
  mat1 : Grid
  /-- The global `mat2`: the buffer `ProcessCA` writes. -/
  mat2 : Grid
  /-- The global `Rule`. -/
  Rule : RuleTable
deriving DecidableEq, Repr

/-- The globals at program start: both vectors empty, the static array `Rule`
zero-filled. -/
def programStart : State :=
  { mat1 := []
    mat2 := []
    Rule := List.replicate 5 (List.replicate 7 (List.replicate 13 (List.replicate 9 0))) }

/-! ## Loops -/

/-- Runs `body` at each key of `ks` in order, threading the state; stops with
`none` as soon as one run fails. -/
def forEach {κ σ : Type} (ks : List κ) (body : κ → σ → Option σ) (s : σ) : Option σ :=
  match ks with
  | [] => some s
  | k :: rest => (body k s).bind (forEach rest body)

/-- The values `lo, lo+1, ..., hi` taken by the counter of
`for (int i = lo; i <= hi; i++)`. -/
def intRange (lo hi : Int) : List Int :=
  (List.range (hi + 1 - lo).toNat).map fun (i : Nat) => lo + (i : Int)

/-- The loop `for (int i = lo; i <= hi; i++) body(i)`. -/
def forRange {σ : Type} (lo hi : Int) (body : Int → σ → Option σ) (s : σ) : Option σ :=
  forEach (intRange lo hi) body s

/-! ## InitCA -/

/-- The body of the seed loop of `InitCA`: `mat1[x][y][z] = 4`. -/
def seedCell (x y z : Int) (s : State) : Option State :=
  (s.mat1.set? x y z 4).bind fun m => some { s with mat1 := m }

/-- The body of the rule loop of `InitCA`:
`if (face + edge + corner == 4) Rule[0][face][edge][corner] = 4`. -/
def ruleCell (face edge corner : Int) (s : State) : Option State :=
  if face + edge + corner = 4 then
    (s.Rule.set? 0 face edge corner 4).bind fun R => some { s with Rule := R }
  else some s

/-- The function `InitCA`: resizes both buffers to 52 x 52 x 52 filled with 0,
sets the 3 x 3 x 3 seed to 4 in `mat1`, and fills `Rule` (rule 4/4/5/M).  The
trailing `if (false)` block of the source never runs and is left out. -/
def InitCA (s : State) : Option State :=
  let plane := List.replicate (GridY + 2).toNat (List.replicate (GridZ + 2).toNat (0 : Int))
  let s1 : State :=
    { s with mat1 := vecResize s.mat1 (GridX + 2).toNat plane
             mat2 := vecResize s.mat2 (GridX + 2).toNat plane }
  (forRange 24 26 (fun z => forRange 24 26 fun y => forRange 24 26 fun x => seedCell x y z) s1).bind
    (forRange 0 6 fun face => forRange 0 12 fun edge => forRange 0 8 fun corner =>
      ruleCell face edge corner)

/-! ## ProcessCA and Swap -/

/-- The six face offsets `(dx, dy, dz)`, in the order `ProcessCA` reads them. -/
def faceOffsets : List (Int × Int × Int) :=
  [(0, 0, -1), (0, 0, 1), (0, -1, 0), (0, 1, 0), (-1, 0, 0), (1, 0, 0)]

/-- The twelve edge offsets, in the order `ProcessCA` reads them. -/
def edgeOffsets : List (Int × Int × Int) :=
  [(0, -1, -1), (-1, 0, -1), (1, 0, -1), (0, 1, -1),
   (-1, -1, 0), (1, -1, 0), (-1, 1, 0), (1, 1, 0),
   (0, -1, 1), (-1, 0, 1), (1, 0, 1), (0, 1, 1)]

/-- The eight corner offsets, in the order `ProcessCA` reads them. -/
def cornerOffsets : List (Int × Int × Int) :=
  [(-1, -1, -1), (1, -1, -1), (-1, 1, -1), (1, 1, -1),
   (-1, -1, 1), (1, -1, 1), (-1, 1, 1), (1, 1, 1)]

/-- A run of statements `if (mat1[x+dx][y+dy][z+dz] > 0) Count++;`, one per
offset of `offs`, starting from the counter value `count`. -/
def countNeighbours (g : Grid) (x y z : Int) (offs : List (Int × Int × Int)) (count : Int) :
    Option Int :=
  match offs with
  | [] => some count
  | d :: rest =>
    (g.get? (x + d.1) (y + d.2.1) (z + d.2.2)).bind fun v =>
      countNeighbours g x y z rest (if v > 0 then count + 1 else count)

/-- The body of the triple loop of `ProcessCA` at the cell `(x, y, z)`. -/
def processCell (x y z : Int) (s : State) : Option State :=
  (s.mat1.get? x y z).bind fun CellState =>
  (s.mat2.set? x y z CellState).bind fun m2 =>
  if CellState > 0 then
    (m2.get? x y z).bind fun v => (m2.set? x y z (v - 1)).bind fun m2a =>
      some { s with mat2 := m2a }
  else if CellState = 0 then
    (countNeighbours s.mat1 x y z faceOffsets 0).bind fun FaceCount =>
    if FaceCount > 0 then
      (countNeighbours s.mat1 x y z edgeOffsets 0).bind fun EdgeCount =>
      (countNeighbours s.mat1 x y z cornerOffsets 0).bind fun CornerCount =>
      (s.Rule.get? CellState FaceCount EdgeCount CornerCount).bind fun r =>
      (m2.set? x y z r).bind fun m2a => some { s with mat2 := m2a }
    else some { s with mat2 := m2 }
  else some { s with mat2 := m2 }

/-- The function `ProcessCA`. -/
def ProcessCA (s : State) : Option State :=
  forRange 1 GridZ (fun z => forRange 1 GridY fun y => forRange 1 GridX fun x =>
    processCell x y z) s

/-- The body of the triple loop of `Swap`: `mat1[x][y][z] = mat2[x][y][z]`. -/
def swapCell (x y z : Int) (s : State) : Option State :=
  (s.mat2.get? x y z).bind fun v => (s.mat1.set? x y z v).bind fun m1 =>
    some { s with mat1 := m1 }

/-- The function `Swap`. -/
def Swap (s : State) : Option State :=
  forRange 1 GridZ (fun z => forRange 1 GridY fun y => forRange 1 GridX fun x =>
    swapCell x y z) s

/-- One tick: `ProcessCA` then `Swap`. -/
def tick (s : State) : Option State :=
  (ProcessCA s).bind Swap

/-- The state after `n` ticks. -/
def ticks (n : Nat) (s : State) : Option State :=
  match n with
  | 0 => some s
  | n + 1 => (tick s).bind (ticks n)

/-! ## Specification-level notions -/

/-- A cell coordinate `(x, y, z)`. -/
abbrev Cell := Int × Int × Int

/-- The grid has exactly the dimensions `nx` x `ny` x `nz`. -/
def Grid.WF (nx ny nz : Nat) (g : Grid) : Prop :=
  g.length = nx ∧ ∀ p ∈ g, p.length = ny ∧ ∀ r ∈ p, r.length = nz

instance Grid.decidableWF (nx ny nz : Nat) (g : Grid) : Decidable (Grid.WF nx ny nz g) := by
  unfold Grid.WF; infer_instance

/-- The rule table has the declared dimensions 5 x 7 x 13 x 9. -/
def RuleTable.WF (R : RuleTable) : Prop :=
  R.length = 5 ∧ ∀ g ∈ R, Grid.WF 7 13 9 g

instance RuleTable.decidableWF (R : RuleTable) : Decidable (RuleTable.WF R) := by
  unfold RuleTable.WF; infer_instance

/-- The state is allocated as `InitCA` allocates it: both buffers
52 x 52 x 52 and the rule table 5 x 7 x 13 x 9. -/
def State.WF (s : State) : Prop :=
  s.mat1.WF 52 52 52 ∧ s.mat2.WF 52 52 52 ∧ s.Rule.WF

instance State.decidableWF (s : State) : Decidable (State.WF s) := by
  unfold State.WF; infer_instance

/-- The coordinate lies inside an `nx` x `ny` x `nz` array. -/
def InRange (nx ny nz : Nat) (c : Cell) : Prop :=
  (0 ≤ c.1 ∧ c.1 < nx) ∧ (0 ≤ c.2.1 ∧ c.2.1 < ny) ∧ (0 ≤ c.2.2 ∧ c.2.2 < nz)

instance InRange.decidable (nx ny nz : Nat) (c : Cell) : Decidable (InRange nx ny nz c) := by
  unfold InRange; infer_instance

/-- The coordinate is an interior cell: every component in `[1, 50]`. -/
def Interior (c : Cell) : Prop :=
  (1 ≤ c.1 ∧ c.1 ≤ GridX) ∧ (1 ≤ c.2.1 ∧ c.2.1 ≤ GridY) ∧ (1 ≤ c.2.2 ∧ c.2.2 ≤ GridZ)

instance Interior.decidable (c : Cell) : Decidable (Interior c) := by
  unfold Interior; infer_instance

/-- The value of `g[x][y][z]`, with 0 standing in for a failed access. -/
def Grid.read (g : Grid) (c : Cell) : Int :=
  (g.get? c.1 c.2.1 c.2.2).getD 0

/-- The grid after `g[x][y][z] = v`, unchanged when the access fails. -/
def Grid.write (g : Grid) (c : Cell) (v : Int) : Grid :=
  (g.set? c.1 c.2.1 c.2.2 v).getD g

/-- Writes `val c` at every cell `c` of `cs`, in order. -/
def Grid.writeAll (g : Grid) (cs : List Cell) (val : Cell → Int) : Grid :=
  match cs with
  | [] => g
  | c :: rest => Grid.writeAll (g.write c (val c)) rest val

/-- The cell `c` moved by the offset `d`. -/
def shift (c d : Cell) : Cell :=
  (c.1 + d.1, c.2.1 + d.2.1, c.2.2 + d.2.2)

/-- The number of offsets `d` of `offs` whose cell `c + d` holds a state `> 0`. -/
def aliveCount (g : Grid) (c : Cell) (offs : List Cell) : Int :=
  ((offs.filter fun d => decide (g.read (shift c d) > 0)).length : Int)

/-- The value `processCell` leaves in `mat2[x][y][z]`, as a function of the
rule table and of `mat1` alone. -/
def nextState (R : RuleTable) (g : Grid) (c : Cell) : Int :=
  let CellState := g.read c
  if CellState > 0 then CellState - 1
  else if CellState = 0 then
    if aliveCount g c faceOffsets > 0 then
      (R.get? 0 (aliveCount g c faceOffsets) (aliveCount g c edgeOffsets)
        (aliveCount g c cornerOffsets)).getD 0
    else 0
  else CellState

/-- The cells visited by three nested loops over `zs`, `ys`, `xs` (outermost
first), in visiting order. -/
def loopCells (zs ys xs : List Int) : List Cell :=
  zs.flatMap fun z => ys.flatMap fun y => xs.map fun x => (x, y, z)

/-- The interior cells in the order `ProcessCA` and `Swap` visit them. -/
@[irreducible]
def interiorCells : List Cell :=
  loopCells (intRange 1 GridZ) (intRange 1 GridY) (intRange 1 GridX)

/-- The grid of the given dimensions with every cell 0. -/
@[irreducible]
def zeroGrid (nx ny nz : Nat) : Grid :=
  List.replicate nx (List.replicate ny (List.replicate nz 0))

/-- The cells of the seed loop of `InitCA`, in visiting order. -/
@[irreducible]
def seedCells : List Cell :=
  loopCells (intRange 24 26) (intRange 24 26) (intRange 24 26)

/-- Turns the loop triple (innermost counter first) into the index triple
`(face, edge, corner)`. -/
def flip3 (p : Cell) : Cell :=
  (p.2.2, p.2.1, p.1)

/-- The test `face + edge + corner == 4` of the rule loop. -/
def sum4 (q : Cell) : Bool :=
  decide (q.1 + q.2.1 + q.2.2 = 4)

/-- The index triples `(face, edge, corner)` at which the rule loop of `InitCA`
writes, in visiting order. -/
@[irreducible]
def ruleCells : List Cell :=
  ((loopCells (intRange 0 6) (intRange 0 12) (intRange 0 8)).map flip3).filter sum4

/-- The state `InitCA` produces from the program start, in closed form. -/
def initState : State :=
  { mat1 := (zeroGrid 52 52 52).writeAll seedCells fun _ => 4
    mat2 := zeroGrid 52 52 52
    Rule := ((zeroGrid 7 13 9).writeAll ruleCells fun _ => 4) ::
      List.replicate 4 (zeroGrid 7 13 9) }

/-- The loop of `ProcessCA` run over the cells of `order` instead of the
nested `z`, `y`, `x` order. -/
def ProcessCAIn (order : List Cell) (s : State) : Option State :=
  forEach order (fun c => processCell c.1 c.2.1 c.2.2) s

/-- The state after `n` calls of `ProcessCA` in a row. -/
def repeatProcessCA (n : Nat) (s : State) : Option State :=
  match n with
  | 0 => some s
  | n + 1 => (ProcessCA s).bind (repeatProcessCA n)

/-- The states reachable from the state `InitCA` produces by finitely many
calls of `ProcessCA` and `Swap`, in any order. -/
inductive Reachable : State → Prop
  | init {s : State} : InitCA programStart = some s → Reachable s
  | processCA {s s1 : State} : Reachable s → ProcessCA s = some s1 → Reachable s1
  | swap {s s1 : State} : Reachable s → Swap s = some s1 → Reachable s1

/-- All 27 offsets with every component in `{-1, 0, 1}`. -/
def unitOffsets : List Cell :=
  [-1, 0, 1].flatMap fun dx => [-1, 0, 1].flatMap fun dy => [-1, 0, 1].map fun dz => (dx, dy, dz)

/-- The number of axes along which the offset moves. -/
def axesMoved (d : Cell) : Nat :=
  (if d.1 = 0 then 0 else 1) + (if d.2.1 = 0 then 0 else 1) + (if d.2.2 = 0 then 0 else 1)

/-- The offsets by one unit along exactly `k` axes. -/
def offsetsAlong (k : Nat) : List Cell :=
  unitOffsets.filter fun d => decide (axesMoved d = k)

/-- The number of cells with state `> 0` among the neighbours of `c` offset by
one unit along exactly `k` axes. -/
def liveNeighbours (g : Grid) (c : Cell) (k : Nat) : Int :=
  (((offsetsAlong k).filter fun d => decide (g.read (shift c d) > 0)).length : Int)

/-- The cell has some coordinate equal to 0 or 51. -/
def OnShell (c : Cell) : Prop :=
  (c.1 = 0 ∨ c.1 = 51) ∨ (c.2.1 = 0 ∨ c.2.1 = 51) ∨ (c.2.2 = 0 ∨ c.2.2 = 51)

instance OnShell.decidable (c : Cell) : Decidable (OnShell c) := by
  unfold OnShell; infer_instance

/-- The invariant of the reachable states: the allocated dimensions, the rule
table of `InitCA`, every cell of both buffers in `[0, 4]`, and every cell
outside the interior 0. -/
def Inv (s : State) : Prop :=
  s.WF ∧ s.Rule = initState.Rule ∧
  (∀ c, InRange 52 52 52 c →
    (0 ≤ s.mat1.read c ∧ s.mat1.read c ≤ 4) ∧ (0 ≤ s.mat2.read c ∧ s.mat2.read c ≤ 4)) ∧
  (∀ c, InRange 52 52 52 c → ¬ Interior c → s.mat1.read c = 0 ∧ s.mat2.read c = 0)

/-- Four live cells that are edge neighbours of `(25, 25, 25)`. -/
def edgeOnlyCells : List Cell :=
  [(25, 24, 24), (24, 25, 24), (26, 25, 24), (25, 26, 24)]

/-- A state in which the dead cell `(25, 25, 25)` has no live face neighbour
and four live edge neighbours; the rule table is the one `InitCA` builds. -/
def edgeOnlyState : State :=
  { mat1 := (zeroGrid 52 52 52).writeAll edgeOnlyCells fun _ => 1
    mat2 := zeroGrid 52 52 52
    Rule := initState.Rule }

/-- The cell lies in the seed cube `[24, 26]^3`. -/
def InSeed (c : Cell) : Prop :=
  (24 ≤ c.1 ∧ c.1 ≤ 26) ∧ (24 ≤ c.2.1 ∧ c.2.1 ≤ 26) ∧ (24 ≤ c.2.2 ∧ c.2.2 ≤ 26)

instance InSeed.decidable (c : Cell) : Decidable (InSeed c) := by
  unfold InSeed; infer_instance

/-- The cell has one coordinate in `{23, 27}` and the other two in `{24, 26}`. -/
def BornFirst (c : Cell) : Prop :=
  ((c.1 = 23 ∨ c.1 = 27) ∧ (c.2.1 = 24 ∨ c.2.1 = 26) ∧ (c.2.2 = 24 ∨ c.2.2 = 26)) ∨
  ((c.2.1 = 23 ∨ c.2.1 = 27) ∧ (c.1 = 24 ∨ c.1 = 26) ∧ (c.2.2 = 24 ∨ c.2.2 = 26)) ∨
  ((c.2.2 = 23 ∨ c.2.2 = 27) ∧ (c.1 = 24 ∨ c.1 = 26) ∧ (c.2.1 = 24 ∨ c.2.1 = 26))

instance BornFirst.decidable (c : Cell) : Decidable (BornFirst c) := by
  unfold BornFirst; infer_instance

/-- The contents of `mat1` after the first tick, as the claim describes them:
3 on the seed cube, 4 on the cells of `BornFirst`, 0 elsewhere. -/
def afterFirstTick (c : Cell) : Int :=
  if InSeed c then 3 else if BornFirst c then 4 else 0

/-- The number of offsets of `offs` that lead from `c` into the seed cube. -/
def seedCount (c : Cell) (offs : List Cell) : Int :=
  ((offs.filter fun d => decide (InSeed (shift c d))).length : Int)

/-- The per-cell next state on the seeded grid, under the rule table of
`InitCA`, written with membership in the seed cube in place of grid reads. -/
def seedNext (c : Cell) : Int :=
  if InSeed c then 3
  else if seedCount c faceOffsets > 0 ∧
      seedCount c faceOffsets + seedCount c edgeOffsets + seedCount c cornerOffsets = 4 then 4
  else 0

/-- Moves a coordinate into `[22, 28]`. -/
def clamp (x : Int) : Int :=
  if x < 22 then 22 else if 28 < x then 28 else x

/-- Moves every coordinate of the cell into `[22, 28]`. -/
def clampCell (c : Cell) : Cell :=
  (clamp c.1, clamp c.2.1, clamp c.2.2)

/-- The cells of the cube `[22, 28]^3` around the seed. -/
def probeCells : List Cell :=
  loopCells (intRange 22 28) (intRange 22 28) (intRange 22 28)

/-- The cells of `BornFirst`, listed. -/
def bornCells : List Cell :=
  probeCells.filter fun c => decide (BornFirst c)

/-- Follows the words of the spec (section 4.2, steps 2 and 3): a cell with
state `> 0` counts down by one; otherwise the face neighbours are counted, a
face count of 0 leaves the cell 0, and any other face count gives
`RuleTable[0][faceCount][edgeCount][cornerCount]`. -/
def specNextState (R : RuleTable) (g : Grid) (c : Cell) : Int :=
  if g.read c > 0 then g.read c - 1
  else if liveNeighbours g c 1 = 0 then 0
  else (R.get? 0 (liveNeighbours g c 1) (liveNeighbours g c 2) (liveNeighbours g c 3)).getD 0

/-! ## Checked vector access -/

theorem vecGet?_eq_some_iff {α : Type} {v : List α} {i : Int} {a : α} :
    vecGet? v i = some a ↔ 0 ≤ i ∧ v[i.toNat]? = some a := by
  unfold vecGet?
  split <;> simp [*]

theorem vecGet?_mem {α : Type} {v : List α} {i : Int} {a : α} (h : vecGet? v i = some a) :
    a ∈ v :=
  List.getElem?_mem (vecGet?_eq_some_iff.1 h).2

theorem vecGet?_isSome {α : Type} {v : List α} {i : Int} (h0 : 0 ≤ i) (h1 : i < v.length) :
    ∃ a, vecGet? v i = some a := by
  have h : i.toNat < v.length := by omega
  exact ⟨v[i.toNat], by simp [vecGet?, h0, List.getElem?_eq_getElem h]⟩

theorem vecSet?_eq {α : Type} {v : List α} {i : Int} (a : α) (h0 : 0 ≤ i)
    (h1 : i < v.length) : vecSet? v i a = some (v.set i.toNat a) := by
  have h : i.toNat < v.length := by omega
  simp [vecSet?, h0, h]

theorem vecGet?_set {α : Type} {v : List α} {i : Int} (a : α) (h0 : 0 ≤ i)
    (h1 : i < v.length) (j : Int) :
    vecGet? (v.set i.toNat a) j = if j = i then some a else vecGet? v j := by
  have h : i.toNat < v.length := by omega
  unfold vecGet?
  by_cases hj : 0 ≤ j
  · by_cases hji : j = i
    · subst hji
      simp [hj, List.getElem?_set, h]
    · have hne : ¬ i.toNat = j.toNat := by omega
      simp [hj, hji, List.getElem?_set, hne]
  · have hji : ¬ j = i := by omega
    simp [hj, hji]

/-! ## Checked grid access on a grid of known dimensions -/

theorem Grid.get?_isSome {nx ny nz : Nat} {g : Grid} (hg : g.WF nx ny nz) {c : Cell}
    (hc : InRange nx ny nz c) : ∃ v, g.get? c.1 c.2.1 c.2.2 = some v := by
  obtain ⟨⟨hx0, hx1⟩, ⟨hy0, hy1⟩, hz0, hz1⟩ := hc
  obtain ⟨p, hp⟩ := vecGet?_isSome (v := g) hx0 (by rw [hg.1]; exact hx1)
  have hpw := hg.2 p (vecGet?_mem hp)
  obtain ⟨r, hr⟩ := vecGet?_isSome (v := p) hy0 (by rw [hpw.1]; exact hy1)
  have hrw := hpw.2 r (vecGet?_mem hr)
  obtain ⟨v, hv⟩ := vecGet?_isSome (v := r) hz0 (by rw [hrw]; exact hz1)
  exact ⟨v, by simp [Grid.get?, hp, hr, hv]⟩

theorem Grid.inRange_of_get? {nx ny nz : Nat} {g : Grid} (hg : g.WF nx ny nz) {c : Cell} {v : Int}
    (h : g.get? c.1 c.2.1 c.2.2 = some v) : InRange nx ny nz c := by
  simp only [Grid.get?, Option.bind_eq_some] at h
  obtain ⟨p, hp, r, hr, hv⟩ := h
  have hpw := hg.2 p (vecGet?_mem hp)
  have hrw := hpw.2 r (vecGet?_mem hr)
  obtain ⟨hx0, hx⟩ := vecGet?_eq_some_iff.1 hp
  obtain ⟨hy0, hy⟩ := vecGet?_eq_some_iff.1 hr
  obtain ⟨hz0, hz⟩ := vecGet?_eq_some_iff.1 hv
  obtain ⟨hx1, -⟩ := List.getElem?_eq_some.1 hx
  obtain ⟨hy1, -⟩ := List.getElem?_eq_some.1 hy
  obtain ⟨hz1, -⟩ := List.getElem?_eq_some.1 hz
  rw [hg.1] at hx1
  rw [hpw.1] at hy1
  rw [hrw] at hz1
  refine ⟨⟨hx0, ?_⟩, ⟨hy0, ?_⟩, hz0, ?_⟩ <;> omega

theorem Grid.get?_eq_none {nx ny nz : Nat} {g : Grid} (hg : g.WF nx ny nz) {c : Cell}
    (hc : ¬ InRange nx ny nz c) : g.get? c.1 c.2.1 c.2.2 = none := by
  cases h : g.get? c.1 c.2.1 c.2.2 with
  | none => rfl
  | some v => exact absurd (Grid.inRange_of_get? hg h) hc

theorem Grid.get?_eq_read {nx ny nz : Nat} {g : Grid} (hg : g.WF nx ny nz) {c : Cell}
    (hc : InRange nx ny nz c) : g.get? c.1 c.2.1 c.2.2 = some (g.read c) := by
  obtain ⟨v, hv⟩ := Grid.get?_isSome hg hc
  simp [Grid.read, hv]

theorem Grid.set?_spec {nx ny nz : Nat} {g : Grid} (hg : g.WF nx ny nz) {c : Cell}
    (hc : InRange nx ny nz c) (v : Int) :
    ∃ g1, g.set? c.1 c.2.1 c.2.2 v = some g1 ∧ g1.WF nx ny nz ∧
      ∀ x y z, g1.get? x y z = if (x, y, z) = c then some v else g.get? x y z := by
  obtain ⟨x0, y0, z0⟩ := c
  obtain ⟨⟨hx0, hx1⟩, ⟨hy0, hy1⟩, hz0, hz1⟩ := hc
  simp only at hx0 hx1 hy0 hy1 hz0 hz1
  obtain ⟨p, hp⟩ := vecGet?_isSome (v := g) hx0 (by rw [hg.1]; exact hx1)
  have hpw := hg.2 p (vecGet?_mem hp)
  obtain ⟨r, hr⟩ := vecGet?_isSome (v := p) hy0 (by rw [hpw.1]; exact hy1)
  have hrw := hpw.2 r (vecGet?_mem hr)
  have hxl : x0 < g.length := by rw [hg.1]; exact hx1
  have hyl : y0 < p.length := by rw [hpw.1]; exact hy1
  have hzl : z0 < r.length := by rw [hrw]; exact hz1
  refine ⟨g.set x0.toNat (p.set y0.toNat (r.set z0.toNat v)), ?_, ?_, ?_⟩
  · simp [Grid.set?, hp, hr, vecSet?_eq _ hx0 hxl, vecSet?_eq _ hy0 hyl, vecSet?_eq _ hz0 hzl]
  · refine ⟨by rw [List.length_set]; exact hg.1, fun q hq => ?_⟩
    rcases List.mem_or_eq_of_mem_set hq with hq | rfl
    · exact hg.2 q hq
    · refine ⟨by rw [List.length_set]; exact hpw.1, fun t ht => ?_⟩
      rcases List.mem_or_eq_of_mem_set ht with ht | rfl
      · exact hpw.2 t ht
      · rw [List.length_set]; exact hrw
  · intro x y z
    unfold Grid.get?
    rw [vecGet?_set _ hx0 hxl]
    by_cases hx : x = x0
    · subst hx
      simp only [if_true, Option.some_bind, hp]
      rw [vecGet?_set _ hy0 hyl]
      by_cases hy : y = y0
      · subst hy
        simp only [if_true, Option.some_bind, hr]
        rw [vecGet?_set _ hz0 hzl]
        by_cases hz : z = z0
        · subst hz; simp
        · simp [hz]
      · simp [hy]
    · simp [hx]

theorem Grid.set?_eq_write {nx ny nz : Nat} {g : Grid} (hg : g.WF nx ny nz) {c : Cell}
    (hc : InRange nx ny nz c) (v : Int) : g.set? c.1 c.2.1 c.2.2 v = some (g.write c v) := by
  obtain ⟨g1, h1, -⟩ := Grid.set?_spec hg hc v
  simp [Grid.write, h1]

theorem Grid.write_WF {nx ny nz : Nat} {g : Grid} (hg : g.WF nx ny nz) (c : Cell) (v : Int) :
    (g.write c v).WF nx ny nz := by
  by_cases hc : InRange nx ny nz c
  · obtain ⟨g1, h1, h2, -⟩ := Grid.set?_spec hg hc v
    simpa [Grid.write, h1] using h2
  · unfold Grid.write
    cases h : g.set? c.1 c.2.1 c.2.2 v with
    | none => simpa using hg
    | some g1 =>
      exfalso
      apply hc
      simp only [Grid.set?, Option.bind_eq_some] at h
      obtain ⟨p, hp, r, hr, r1, hr1, p1, hp1, hg1⟩ := h
      have hpw := hg.2 p (vecGet?_mem hp)
      have hrw := hpw.2 r (vecGet?_mem hr)
      simp only [vecSet?] at hr1 hp1 hg1
      split at hr1 <;> [skip; simp at hr1]
      split at hp1 <;> [skip; simp at hp1]
      split at hg1 <;> [skip; simp at hg1]
      rename_i h1 h2 h3
      rw [hg.1] at h3
      rw [hpw.1] at h2
      rw [hrw] at h1
      refine ⟨⟨h3.1, ?_⟩, ⟨h2.1, ?_⟩, h1.1, ?_⟩ <;> omega

theorem Grid.read_write {nx ny nz : Nat} {g : Grid} (hg : g.WF nx ny nz) {c : Cell}
    (hc : InRange nx ny nz c) (v : Int) (c1 : Cell) :
    (g.write c v).read c1 = if c1 = c then v else g.read c1 := by
  obtain ⟨g1, h1, -, h3⟩ := Grid.set?_spec hg hc v
  simp only [Grid.write, h1, Option.getD_some, Grid.read, h3]
  by_cases h : c1 = c
  · subst h; simp
  · have h' : ¬ (c1.1, c1.2.1, c1.2.2) = c := h
    simp [h, h']

theorem Grid.writeAll_WF {nx ny nz : Nat} (cs : List Cell) (val : Cell → Int) {g : Grid}
    (hg : g.WF nx ny nz) : (g.writeAll cs val).WF nx ny nz := by
  induction cs generalizing g with
  | nil => exact hg
  | cons c rest ih => exact ih (Grid.write_WF hg c (val c))

theorem Grid.read_writeAll {nx ny nz : Nat} (cs : List Cell) (val : Cell → Int) {g : Grid}
    (hg : g.WF nx ny nz) (hcs : ∀ c ∈ cs, InRange nx ny nz c) (c1 : Cell) :
    (g.writeAll cs val).read c1 = if c1 ∈ cs then val c1 else g.read c1 := by
  induction cs generalizing g with
  | nil => simp [Grid.writeAll]
  | cons c rest ih =>
    have hc := hcs c (List.mem_cons_self c rest)
    have hrest : ∀ d ∈ rest, InRange nx ny nz d := fun d hd => hcs d (List.mem_cons_of_mem c hd)
    simp only [Grid.writeAll]
    rw [ih (Grid.write_WF hg c (val c)) hrest, Grid.read_write hg hc]
    by_cases h1 : c1 ∈ rest
    · simp [h1]
    · by_cases h2 : c1 = c
      · subst h2; simp
      · simp [h1, h2]

/-- Two grids of the same dimensions that agree at every coordinate in range
are equal. -/
theorem Grid.ext_read {nx ny nz : Nat} {g g1 : Grid} (hg : g.WF nx ny nz)
    (hg1 : g1.WF nx ny nz) (h : ∀ c, InRange nx ny nz c → g.read c = g1.read c) : g = g1 := by
  apply List.ext_getElem (by rw [hg.1, hg1.1])
  intro i hi hi1
  have hp := hg.2 _ (List.getElem_mem hi)
  have hp1 := hg1.2 _ (List.getElem_mem hi1)
  apply List.ext_getElem (by rw [hp.1, hp1.1])
  intro j hj hj1
  have hr := hp.2 _ (List.getElem_mem hj)
  have hr1 := hp1.2 _ (List.getElem_mem hj1)
  apply List.ext_getElem (by rw [hr, hr1])
  intro k hk hk1
  have hin : InRange nx ny nz ((i : Int), (j : Int), (k : Int)) := by
    have h1 := hg.1
    have h2 := hp.1
    refine ⟨⟨?_, ?_⟩, ⟨?_, ?_⟩, ?_, ?_⟩ <;> simp only <;> omega
  have := h _ hin
  simpa [Grid.read, Grid.get?, vecGet?, List.getElem?_eq_getElem, hi, hi1, hj, hj1, hk, hk1]
    using this

/-! ## Loops -/

theorem forEach_append {κ σ : Type} (as bs : List κ) (body : κ → σ → Option σ) (s : σ) :
    forEach (as ++ bs) body s = (forEach as body s).bind (forEach bs body) := by
  induction as generalizing s with
  | nil => simp [forEach]
  | cons a rest ih =>
    simp only [List.cons_append, forEach]
    cases body a s with
    | none => simp
    | some s1 => simp [ih]

theorem forEach_map {κ ι σ : Type} (ks : List κ) (f : κ → ι) (body : ι → σ → Option σ)
    (s : σ) : forEach (ks.map f) body s = forEach ks (fun k => body (f k)) s := by
  induction ks generalizing s with
  | nil => simp [forEach]
  | cons a rest ih =>
    simp only [List.map_cons, forEach]
    cases body (f a) s with
    | none => simp
    | some s1 => simp [ih]

theorem forEach_flatMap {κ ι σ : Type} (ks : List κ) (f : κ → List ι)
    (body : ι → σ → Option σ) (s : σ) :
    forEach (ks.flatMap f) body s = forEach ks (fun k => forEach (f k) body) s := by
  induction ks generalizing s with
  | nil => simp [forEach]
  | cons a rest ih =>
    simp only [List.flatMap_cons, forEach_append, forEach]
    cases forEach (f a) body s with
    | none => simp
    | some s1 => simp [ih]

theorem forEach_congr {κ σ : Type} (ks : List κ) {body body1 : κ → σ → Option σ}
    (h : ∀ k s, body k s = body1 k s) (s : σ) : forEach ks body s = forEach ks body1 s := by
  have : body = body1 := funext fun k => funext fun s => h k s
  rw [this]

/-- Three nested counted loops run their body over `loopCells` in order. -/
theorem forRange_nest {σ : Type} (a b c d e f : Int) (body : Int → Int → Int → σ → Option σ)
    (s : σ) :
    forRange a b (fun z => forRange c d fun y => forRange e f fun x => body x y z) s =
      forEach (loopCells (intRange a b) (intRange c d) (intRange e f))
        (fun p => body p.1 p.2.1 p.2.2) s := by
  unfold forRange loopCells
  rw [forEach_flatMap]
  refine forEach_congr _ (fun z s1 => ?_) s
  rw [forEach_flatMap]
  refine forEach_congr _ (fun y s2 => ?_) s1
  rw [forEach_map]

theorem mem_intRange {lo hi x : Int} : x ∈ intRange lo hi ↔ lo ≤ x ∧ x ≤ hi := by
  simp only [intRange, List.mem_map, List.mem_range]
  constructor
  · rintro ⟨i, hi1, rfl⟩
    omega
  · rintro ⟨h1, h2⟩
    exact ⟨(x - lo).toNat, by omega, by omega⟩

theorem mem_loopCells {zs ys xs : List Int} {c : Cell} :
    c ∈ loopCells zs ys xs ↔ c.1 ∈ xs ∧ c.2.1 ∈ ys ∧ c.2.2 ∈ zs := by
  obtain ⟨x, y, z⟩ := c
  simp only [loopCells, List.mem_flatMap, List.mem_map, Prod.mk.injEq]
  constructor
  · rintro ⟨z1, hz, y1, hy, x1, hx, rfl, rfl, rfl⟩
    exact ⟨hx, hy, hz⟩
  · rintro ⟨hx, hy, hz⟩
    exact ⟨z, hz, y, hy, x, hx, rfl, rfl, rfl⟩

theorem mem_interiorCells {c : Cell} : c ∈ interiorCells ↔ Interior c := by
  simp only [interiorCells, mem_loopCells, mem_intRange, Interior]

theorem Interior.inRange {c : Cell} (h : Interior c) : InRange 52 52 52 c := by
  simp only [Interior, GridX, GridY, GridZ] at h
  simp only [InRange]
  omega

theorem Interior.shift_inRange {c : Cell} (h : Interior c) {d : Cell}
    (hd : (-1 ≤ d.1 ∧ d.1 ≤ 1) ∧ (-1 ≤ d.2.1 ∧ d.2.1 ≤ 1) ∧ (-1 ≤ d.2.2 ∧ d.2.2 ≤ 1)) :
    InRange 52 52 52 (shift c d) := by
  simp only [Interior, GridX, GridY, GridZ] at h
  simp only [InRange, shift]
  omega

/-! ## The loop bodies as total functions -/

theorem Grid.write_write {nx ny nz : Nat} {g : Grid} (hg : g.WF nx ny nz) {c : Cell}
    (hc : InRange nx ny nz c) (a b : Int) : (g.write c a).write c b = g.write c b := by
  apply Grid.ext_read (Grid.write_WF (Grid.write_WF hg c a) c b) (Grid.write_WF hg c b)
  intro c1 _
  rw [Grid.read_write (Grid.write_WF hg c a) hc, Grid.read_write hg hc, Grid.read_write hg hc]
  by_cases h : c1 = c <;> simp [h]

theorem aliveCount_nonneg (g : Grid) (c : Cell) (offs : List Cell) : 0 ≤ aliveCount g c offs := by
  unfold aliveCount; omega

theorem aliveCount_le (g : Grid) (c : Cell) (offs : List Cell) :
    aliveCount g c offs ≤ offs.length := by
  unfold aliveCount
  have := List.length_filter_le (fun d => decide (g.read (shift c d) > 0)) offs
  omega

theorem aliveCount_cons (g : Grid) (c d : Cell) (offs : List Cell) :
    aliveCount g c (d :: offs) =
      (if g.read (shift c d) > 0 then 1 else 0) + aliveCount g c offs := by
  unfold aliveCount
  by_cases h : g.read (shift c d) > 0
  · simp [List.filter_cons, h]; omega
  · simp [List.filter_cons, h]

theorem countNeighbours_eq {nx ny nz : Nat} {g : Grid} (hg : g.WF nx ny nz) (c : Cell)
    (offs : List Cell) (h : ∀ d ∈ offs, InRange nx ny nz (shift c d)) (n : Int) :
    countNeighbours g c.1 c.2.1 c.2.2 offs n = some (n + aliveCount g c offs) := by
  induction offs generalizing n with
  | nil => simp [countNeighbours, aliveCount]
  | cons d rest ih =>
    have hd := h d (List.mem_cons_self d rest)
    have hrest : ∀ e ∈ rest, InRange nx ny nz (shift c e) :=
      fun e he => h e (List.mem_cons_of_mem d he)
    have hread := Grid.get?_eq_read hg hd
    simp only [shift] at hread
    simp only [countNeighbours, hread, Option.some_bind]
    rw [ih hrest, aliveCount_cons]
    by_cases hv : g.read (shift c d) > 0
    · have hv1 : g.read (c.1 + d.1, c.2.1 + d.2.1, c.2.2 + d.2.2) > 0 := hv
      simp only [hv, hv1, if_true]; congr 1; omega
    · have hv1 : ¬ g.read (c.1 + d.1, c.2.1 + d.2.1, c.2.2 + d.2.2) > 0 := hv
      simp only [hv, hv1, if_false]; congr 1; omega

theorem faceOffsets_unit :
    ∀ d ∈ faceOffsets, (-1 ≤ d.1 ∧ d.1 ≤ 1) ∧ (-1 ≤ d.2.1 ∧ d.2.1 ≤ 1) ∧ (-1 ≤ d.2.2 ∧ d.2.2 ≤ 1) := by
  decide

theorem edgeOffsets_unit :
    ∀ d ∈ edgeOffsets, (-1 ≤ d.1 ∧ d.1 ≤ 1) ∧ (-1 ≤ d.2.1 ∧ d.2.1 ≤ 1) ∧ (-1 ≤ d.2.2 ∧ d.2.2 ≤ 1) := by
  decide

theorem cornerOffsets_unit :
    ∀ d ∈ cornerOffsets,
      (-1 ≤ d.1 ∧ d.1 ≤ 1) ∧ (-1 ≤ d.2.1 ∧ d.2.1 ≤ 1) ∧ (-1 ≤ d.2.2 ∧ d.2.2 ≤ 1) := by
  decide

theorem RuleTable.lookup_isSome {R : RuleTable} (hR : R.WF) {s f e c : Int}
    (hs : 0 ≤ s ∧ s < 5) (hf : 0 ≤ f ∧ f < 7) (he : 0 ≤ e ∧ e < 13) (hc : 0 ≤ c ∧ c < 9) :
    ∃ v, R.get? s f e c = some v := by
  obtain ⟨g, hg⟩ := vecGet?_isSome (v := R) hs.1 (by rw [hR.1]; exact_mod_cast hs.2)
  have hgw := hR.2 g (vecGet?_mem hg)
  obtain ⟨v, hv⟩ := Grid.get?_isSome hgw (c := (f, e, c)) ⟨hf, he, hc⟩
  exact ⟨v, by simp [RuleTable.get?, hg, hv]⟩

theorem processCell_eq {s : State} (hs : s.WF) {c : Cell} (hc : Interior c) :
    processCell c.1 c.2.1 c.2.2 s =
      some { s with mat2 := s.mat2.write c (nextState s.Rule s.mat1 c) } := by
  obtain ⟨h1, h2, hR⟩ := hs
  have hin := hc.inRange
  have hface := countNeighbours_eq h1 c faceOffsets
    (fun d hd => hc.shift_inRange (faceOffsets_unit d hd)) 0
  have hedge := countNeighbours_eq h1 c edgeOffsets
    (fun d hd => hc.shift_inRange (edgeOffsets_unit d hd)) 0
  have hcorner := countNeighbours_eq h1 c cornerOffsets
    (fun d hd => hc.shift_inRange (cornerOffsets_unit d hd)) 0
  have hw := Grid.write_WF h2 c (s.mat1.read c)
  unfold processCell
  rw [Grid.get?_eq_read h1 hin]
  simp only [Option.some_bind]
  rw [Grid.set?_eq_write h2 hin]
  simp only [Option.some_bind]
  by_cases hpos : s.mat1.read c > 0
  · rw [if_pos hpos, Grid.get?_eq_read hw hin]
    simp only [Option.some_bind]
    rw [Grid.set?_eq_write hw hin, Grid.read_write h2 hin, if_pos rfl, Grid.write_write h2 hin]
    simp [nextState, hpos]
  · rw [if_neg hpos]
    by_cases hzero : s.mat1.read c = 0
    · rw [if_pos hzero, hface]
      simp only [Option.some_bind, zero_add]
      by_cases hf : aliveCount s.mat1 c faceOffsets > 0
      · rw [if_pos hf, hedge, hcorner]
        simp only [Option.some_bind, zero_add]
        have hfle : aliveCount s.mat1 c faceOffsets ≤ ((6 : Nat) : Int) :=
          aliveCount_le s.mat1 c faceOffsets
        have hele : aliveCount s.mat1 c edgeOffsets ≤ ((12 : Nat) : Int) :=
          aliveCount_le s.mat1 c edgeOffsets
        have hcle : aliveCount s.mat1 c cornerOffsets ≤ ((8 : Nat) : Int) :=
          aliveCount_le s.mat1 c cornerOffsets
        have he0 := aliveCount_nonneg s.mat1 c edgeOffsets
        have hc0 := aliveCount_nonneg s.mat1 c cornerOffsets
        obtain ⟨v, hv⟩ := RuleTable.lookup_isSome hR (s := 0) (f := aliveCount s.mat1 c faceOffsets)
          (e := aliveCount s.mat1 c edgeOffsets) (c := aliveCount s.mat1 c cornerOffsets)
          (by omega) (by omega) (by omega) (by omega)
        rw [hzero, hv]
        simp only [Option.some_bind]
        rw [Grid.set?_eq_write (hzero ▸ hw) hin, Grid.write_write h2 hin]
        simp [nextState, hzero, hf, hv]
      · rw [if_neg hf]
        simp [nextState, hzero, hf]
    · rw [if_neg hzero]
      simp [nextState, hpos, hzero]

theorem swapCell_eq {s : State} (hs : s.WF) {c : Cell} (hc : Interior c) :
    swapCell c.1 c.2.1 c.2.2 s = some { s with mat1 := s.mat1.write c (s.mat2.read c) } := by
  obtain ⟨h1, h2, -⟩ := hs
  unfold swapCell
  rw [Grid.get?_eq_read h2 hc.inRange]
  simp only [Option.some_bind]
  rw [Grid.set?_eq_write h1 hc.inRange]
  simp

/-! ## ProcessCA and Swap in closed form -/

theorem forEach_processCell {cs : List Cell} (hcs : ∀ c ∈ cs, Interior c) {s : State}
    (hs : s.WF) :
    forEach cs (fun c => processCell c.1 c.2.1 c.2.2) s =
      some { s with mat2 := s.mat2.writeAll cs (nextState s.Rule s.mat1) } := by
  induction cs generalizing s with
  | nil => simp [forEach, Grid.writeAll]
  | cons c rest ih =>
    have hc := hcs c (List.mem_cons_self c rest)
    have hrest : ∀ d ∈ rest, Interior d := fun d hd => hcs d (List.mem_cons_of_mem c hd)
    have hs1 : State.WF { s with mat2 := s.mat2.write c (nextState s.Rule s.mat1 c) } :=
      ⟨hs.1, Grid.write_WF hs.2.1 c _, hs.2.2⟩
    simp only [forEach, processCell_eq hs hc, Option.some_bind]
    rw [ih hrest hs1]
    simp [Grid.writeAll]

theorem forEach_swapCell {cs : List Cell} (hcs : ∀ c ∈ cs, Interior c) {s : State}
    (hs : s.WF) :
    forEach cs (fun c => swapCell c.1 c.2.1 c.2.2) s =
      some { s with mat1 := s.mat1.writeAll cs s.mat2.read } := by
  induction cs generalizing s with
  | nil => simp [forEach, Grid.writeAll]
  | cons c rest ih =>
    have hc := hcs c (List.mem_cons_self c rest)
    have hrest : ∀ d ∈ rest, Interior d := fun d hd => hcs d (List.mem_cons_of_mem c hd)
    have hs1 : State.WF { s with mat1 := s.mat1.write c (s.mat2.read c) } :=
      ⟨Grid.write_WF hs.1 c _, hs.2.1, hs.2.2⟩
    simp only [forEach, swapCell_eq hs hc, Option.some_bind]
    rw [ih hrest hs1]
    simp [Grid.writeAll]

theorem ProcessCA_eq {s : State} (hs : s.WF) :
    ProcessCA s =
      some { s with mat2 := s.mat2.writeAll interiorCells (nextState s.Rule s.mat1) } := by
  unfold ProcessCA
  rw [forRange_nest, ← interiorCells.eq_1]
  exact forEach_processCell (fun c hc => mem_interiorCells.1 hc) hs

theorem Swap_eq {s : State} (hs : s.WF) :
    Swap s = some { s with mat1 := s.mat1.writeAll interiorCells s.mat2.read } := by
  unfold Swap
  rw [forRange_nest, ← interiorCells.eq_1]
  exact forEach_swapCell (fun c hc => mem_interiorCells.1 hc) hs

theorem read_writeAll_interior {g : Grid} (hg : g.WF 52 52 52) (val : Cell → Int) (c : Cell) :
    (g.writeAll interiorCells val).read c = if Interior c then val c else g.read c := by
  rw [Grid.read_writeAll interiorCells val hg (fun d hd => (mem_interiorCells.1 hd).inRange)]
  simp only [mem_interiorCells]

theorem ProcessCA_WF {s : State} (hs : s.WF) :
    State.WF { s with mat2 := s.mat2.writeAll interiorCells (nextState s.Rule s.mat1) } :=
  ⟨hs.1, Grid.writeAll_WF _ _ hs.2.1, hs.2.2⟩

theorem Swap_WF {s : State} (hs : s.WF) :
    State.WF { s with mat1 := s.mat1.writeAll interiorCells s.mat2.read } :=
  ⟨Grid.writeAll_WF _ _ hs.1, hs.2.1, hs.2.2⟩

/-- Writing the same values at the interior cells a second time changes nothing. -/
theorem writeAll_interior_idem {g : Grid} (hg : g.WF 52 52 52) (val : Cell → Int) :
    (g.writeAll interiorCells val).writeAll interiorCells val = g.writeAll interiorCells val := by
  have h1 := Grid.writeAll_WF interiorCells val hg
  apply Grid.ext_read (Grid.writeAll_WF interiorCells val h1) h1
  intro c _
  rw [read_writeAll_interior h1, read_writeAll_interior hg]
  by_cases h : Interior c <;> simp [h]

theorem tick_eq {s : State} (hs : s.WF) :
    tick s = some
      { s with mat1 := s.mat1.writeAll interiorCells
                 (s.mat2.writeAll interiorCells (nextState s.Rule s.mat1)).read
               mat2 := s.mat2.writeAll interiorCells (nextState s.Rule s.mat1) } := by
  unfold tick
  rw [ProcessCA_eq hs, Option.some_bind, Swap_eq (ProcessCA_WF hs)]

theorem tick_WF {s : State} (hs : s.WF) :
    State.WF
      { s with mat1 := s.mat1.writeAll interiorCells
                 (s.mat2.writeAll interiorCells (nextState s.Rule s.mat1)).read
               mat2 := s.mat2.writeAll interiorCells (nextState s.Rule s.mat1) } :=
  Swap_WF (ProcessCA_WF hs)

/-- After one tick an interior cell of `mat1` holds `nextState` of the old
`mat1`; a cell outside the interior keeps its value. -/
theorem tick_read {s : State} (hs : s.WF) (c : Cell) :
    (s.mat1.writeAll interiorCells
      (s.mat2.writeAll interiorCells (nextState s.Rule s.mat1)).read).read c =
      if Interior c then nextState s.Rule s.mat1 c else s.mat1.read c := by
  rw [read_writeAll_interior hs.1]
  by_cases h : Interior c
  · simp only [h, if_true]
    rw [read_writeAll_interior hs.2.1]
    simp [h]
  · simp [h]

/-! ## InitCA in closed form -/

theorem zeroGrid_WF (nx ny nz : Nat) : (zeroGrid nx ny nz).WF nx ny nz := by
  unfold zeroGrid
  refine ⟨by simp [zeroGrid], fun p hp => ?_⟩
  obtain ⟨-, rfl⟩ := List.mem_replicate.1 hp
  refine ⟨by simp, fun r hr => ?_⟩
  obtain ⟨-, rfl⟩ := List.mem_replicate.1 hr
  simp

theorem vecGet?_replicate {α : Type} (n : Nat) (a : α) (i : Int) :
    vecGet? (List.replicate n a) i = if 0 ≤ i ∧ i.toNat < n then some a else none := by
  unfold vecGet?
  by_cases h0 : 0 ≤ i
  · by_cases h1 : i.toNat < n <;> simp [h0, h1, List.getElem?_replicate]
  · simp [h0]

theorem zeroGrid_read (nx ny nz : Nat) (c : Cell) : (zeroGrid nx ny nz).read c = 0 := by
  simp only [Grid.read, Grid.get?, zeroGrid, vecGet?_replicate]
  by_cases hx : 0 ≤ c.1 ∧ c.1.toNat < nx
  · by_cases hy : 0 ≤ c.2.1 ∧ c.2.1.toNat < ny
    · by_cases hz : 0 ≤ c.2.2 ∧ c.2.2.toNat < nz
      · simp [hx, hy, hz, vecGet?_replicate]
      · simp [hx, hy, hz, vecGet?_replicate]
    · simp [hx, hy, vecGet?_replicate]
  · simp [hx]

theorem seedCell_eq {s : State} (hs : s.mat1.WF 52 52 52) {c : Cell} (hc : InRange 52 52 52 c) :
    seedCell c.1 c.2.1 c.2.2 s = some { s with mat1 := s.mat1.write c 4 } := by
  unfold seedCell
  rw [Grid.set?_eq_write hs hc]
  simp

theorem forEach_seedCell {cs : List Cell} (hcs : ∀ c ∈ cs, InRange 52 52 52 c) {s : State}
    (hs : s.mat1.WF 52 52 52) :
    forEach cs (fun c => seedCell c.1 c.2.1 c.2.2) s =
      some { s with mat1 := s.mat1.writeAll cs fun _ => 4 } := by
  induction cs generalizing s with
  | nil => simp [forEach, Grid.writeAll]
  | cons c rest ih =>
    have hc := hcs c (List.mem_cons_self c rest)
    have hrest : ∀ d ∈ rest, InRange 52 52 52 d := fun d hd => hcs d (List.mem_cons_of_mem c hd)
    have hs1 : Grid.WF 52 52 52 ({ s with mat1 := s.mat1.write c 4 } : State).mat1 :=
      Grid.write_WF hs c _
    simp only [forEach, seedCell_eq hs hc, Option.some_bind]
    rw [ih hrest hs1]
    simp [Grid.writeAll]

theorem ruleCell_eq {s : State} {g : Grid} {rest : List Grid} (hR : s.Rule = g :: rest)
    (hg : g.WF 7 13 9) {q : Cell} (hq : InRange 7 13 9 q) :
    ruleCell q.1 q.2.1 q.2.2 s =
      some { s with Rule := (if sum4 q then g.write q 4 else g) :: rest } := by
  unfold ruleCell sum4
  by_cases h : q.1 + q.2.1 + q.2.2 = 4
  · simp [h, RuleTable.set?, hR, vecGet?, vecSet?, Grid.set?_eq_write hg hq]
  · simp only [h, if_false, decide_False, Bool.false_eq_true]
    rw [← hR]

theorem forEach_ruleCell {ps : List Cell} (hps : ∀ p ∈ ps, InRange 7 13 9 (flip3 p))
    {s : State} {g : Grid} {rest : List Grid} (hR : s.Rule = g :: rest) (hg : g.WF 7 13 9) :
    forEach ps (fun p => ruleCell p.2.2 p.2.1 p.1) s =
      some { s with Rule := (g.writeAll ((ps.map flip3).filter sum4) fun _ => 4) :: rest } := by
  induction ps generalizing s g with
  | nil => simp [forEach, Grid.writeAll, ← hR]
  | cons p tail ih =>
    have hp := hps p (List.mem_cons_self p tail)
    have htail : ∀ d ∈ tail, InRange 7 13 9 (flip3 d) :=
      fun d hd => hps d (List.mem_cons_of_mem p hd)
    have hstep := ruleCell_eq hR hg hp
    simp only [flip3] at hstep
    simp only [forEach, hstep, Option.some_bind]
    by_cases h4 : sum4 (flip3 p) = true
    · have h4a : sum4 (p.2.2, p.2.1, p.1) = true := h4
      rw [ih htail (g := g.write (flip3 p) 4) (by simp [h4a, flip3]) (Grid.write_WF hg _ _)]
      simp [List.filter_cons, h4, Grid.writeAll]
    · have h4a : ¬ sum4 (p.2.2, p.2.1, p.1) = true := h4
      rw [ih htail (g := g) (by simp [h4a]) hg]
      simp [List.filter_cons, h4]

theorem mem_seedCells {c : Cell} :
    c ∈ seedCells ↔ (24 ≤ c.1 ∧ c.1 ≤ 26) ∧ (24 ≤ c.2.1 ∧ c.2.1 ≤ 26) ∧ (24 ≤ c.2.2 ∧ c.2.2 ≤ 26) := by
  simp only [seedCells, mem_loopCells, mem_intRange]

theorem mem_ruleCells {q : Cell} :
    q ∈ ruleCells ↔ InRange 7 13 9 q ∧ q.1 + q.2.1 + q.2.2 = 4 := by
  obtain ⟨f, e, c⟩ := q
  simp only [ruleCells, List.mem_filter, List.mem_map, mem_loopCells, mem_intRange, flip3, sum4,
    decide_eq_true_eq, InRange, Prod.mk.injEq]
  constructor
  · rintro ⟨⟨p, hp, rfl, rfl, rfl⟩, h4⟩
    refine ⟨?_, h4⟩
    omega
  · rintro ⟨hr, h4⟩
    refine ⟨⟨(c, e, f), ?_, rfl, rfl, rfl⟩, h4⟩
    simp only
    omega

theorem InitCA_eq : InitCA programStart = some initState := by
  have hdx : (GridX + 2).toNat = 52 := by decide
  have hdy : (GridY + 2).toNat = 52 := by decide
  have hdz : (GridZ + 2).toNat = 52 := by decide
  have hseed : ∀ c ∈ seedCells, InRange 52 52 52 c := by
    intro c hc
    have := mem_seedCells.1 hc
    simp only [InRange]
    omega
  have hrule : ∀ p ∈ loopCells (intRange 0 6) (intRange 0 12) (intRange 0 8),
      InRange 7 13 9 (flip3 p) := by
    intro p hp
    have := mem_loopCells.1 hp
    simp only [mem_intRange] at this
    simp only [InRange, flip3]
    omega
  have hplane : vecResize ([] : Grid) 52 (List.replicate 52 (List.replicate 52 (0 : Int))) =
      zeroGrid 52 52 52 := by
    simp [vecResize, zeroGrid]
  have hR : List.replicate 5 (List.replicate 7 (List.replicate 13 (List.replicate 9 (0 : Int)))) =
      zeroGrid 7 13 9 :: List.replicate 4 (zeroGrid 7 13 9) := by
    simp only [zeroGrid]; rfl
  unfold InitCA
  simp only [hdx, hdy, hdz, programStart, hplane, hR]
  rw [forRange_nest, ← seedCells.eq_1, forEach_seedCell hseed (zeroGrid_WF 52 52 52),
    Option.some_bind, forRange_nest]
  rw [@forEach_ruleCell _ hrule _ (zeroGrid 7 13 9) (List.replicate 4 (zeroGrid 7 13 9))
    rfl (zeroGrid_WF 7 13 9)]
  simp only [initState, ruleCells]

theorem initState_WF : initState.WF := by
  unfold State.WF RuleTable.WF
  simp only [initState]
  refine ⟨Grid.writeAll_WF _ _ (zeroGrid_WF 52 52 52), zeroGrid_WF 52 52 52, ?_, ?_⟩
  · simp
  · intro g hg
    simp only [List.mem_cons, List.mem_replicate] at hg
    rcases hg with rfl | ⟨-, rfl⟩
    · exact Grid.writeAll_WF _ _ (zeroGrid_WF 7 13 9)
    · exact zeroGrid_WF 7 13 9

theorem initState_mat1_read (c : Cell) :
    initState.mat1.read c = if c ∈ seedCells then 4 else 0 := by
  have hseed : ∀ d ∈ seedCells, InRange 52 52 52 d := by
    intro d hd
    have := mem_seedCells.1 hd
    simp only [InRange]
    omega
  simp only [initState]
  rw [Grid.read_writeAll seedCells _ (zeroGrid_WF 52 52 52) hseed, zeroGrid_read]

theorem initState_mat2_read (c : Cell) : initState.mat2.read c = 0 :=
  zeroGrid_read 52 52 52 c

/-- The rule table `InitCA` builds: `Rule[0][f][e][c]` is 4 when `f + e + c = 4`
and 0 otherwise. -/
theorem initState_Rule_zero {q : Cell} (hq : InRange 7 13 9 q) :
    initState.Rule.get? 0 q.1 q.2.1 q.2.2 = some (if q.1 + q.2.1 + q.2.2 = 4 then 4 else 0) := by
  have hcells : ∀ d ∈ ruleCells, InRange 7 13 9 d := fun d hd => (mem_ruleCells.1 hd).1
  have hw := Grid.writeAll_WF ruleCells (fun _ => (4 : Int)) (zeroGrid_WF 7 13 9)
  have hget : initState.Rule.get? 0 q.1 q.2.1 q.2.2 =
      ((zeroGrid 7 13 9).writeAll ruleCells fun _ => 4).get? q.1 q.2.1 q.2.2 := by
    simp [initState, RuleTable.get?, vecGet?]
  rw [hget, Grid.get?_eq_read hw hq,
    Grid.read_writeAll ruleCells _ (zeroGrid_WF 7 13 9) hcells, zeroGrid_read]
  simp only [mem_ruleCells, hq, true_and]

/-- Every entry `Rule[s][f][e][c]` with `s` in `[1, 4]` is 0 after `InitCA`. -/
theorem initState_Rule_pos {s : Int} (hs : 1 ≤ s ∧ s ≤ 4) {q : Cell} (hq : InRange 7 13 9 q) :
    initState.Rule.get? s q.1 q.2.1 q.2.2 = some 0 := by
  have hget : vecGet? initState.Rule s = some (zeroGrid 7 13 9) := by
    have h0 : 0 ≤ s := by omega
    have h1 : s.toNat = (s.toNat - 1) + 1 := by omega
    have h2 : s.toNat - 1 < 4 := by omega
    simp only [vecGet?, h0, if_true, initState]
    rw [h1, List.getElem?_cons_succ, List.getElem?_replicate]
    simp [h2]
  simp only [RuleTable.get?, hget, Option.some_bind]
  rw [Grid.get?_eq_read (zeroGrid_WF 7 13 9) hq, zeroGrid_read]

theorem Rule_of_InitCA {s : State} (h : (InitCA programStart).map (fun t => t.Rule) = some s.Rule) :
    s.Rule = initState.Rule := by
  rw [InitCA_eq] at h
  simpa using h.symm

/-- The per-cell next state under the rule table of `InitCA`. -/
theorem nextState_initRule (g : Grid) (c : Cell) :
    nextState initState.Rule g c =
      if g.read c > 0 then g.read c - 1
      else if g.read c = 0 then
        if aliveCount g c faceOffsets > 0 ∧
            aliveCount g c faceOffsets + aliveCount g c edgeOffsets +
              aliveCount g c cornerOffsets = 4 then 4 else 0
      else g.read c := by
  have hfle : aliveCount g c faceOffsets ≤ ((6 : Nat) : Int) := aliveCount_le g c faceOffsets
  have hele : aliveCount g c edgeOffsets ≤ ((12 : Nat) : Int) := aliveCount_le g c edgeOffsets
  have hcle : aliveCount g c cornerOffsets ≤ ((8 : Nat) : Int) := aliveCount_le g c cornerOffsets
  have hf0 := aliveCount_nonneg g c faceOffsets
  have he0 := aliveCount_nonneg g c edgeOffsets
  have hc0 := aliveCount_nonneg g c cornerOffsets
  have hq : InRange 7 13 9
      (aliveCount g c faceOffsets, aliveCount g c edgeOffsets, aliveCount g c cornerOffsets) := by
    simp only [InRange]; omega
  have hlook := initState_Rule_zero hq
  simp only at hlook
  unfold nextState
  simp only [hlook, Option.getD_some]
  by_cases hpos : g.read c > 0
  · simp [hpos]
  · by_cases hzero : g.read c = 0
    · by_cases hf : aliveCount g c faceOffsets > 0
      · simp [hzero, hf]
      · simp [hzero, hf]
    · simp [hpos, hzero]

theorem faceOffsets_perm : faceOffsets.Perm (offsetsAlong 1) := by decide

theorem edgeOffsets_perm : edgeOffsets.Perm (offsetsAlong 2) := by decide

theorem cornerOffsets_perm : cornerOffsets.Perm (offsetsAlong 3) := by decide

theorem aliveCount_perm (g : Grid) (c : Cell) {offs offs1 : List Cell} (h : offs.Perm offs1) :
    aliveCount g c offs = aliveCount g c offs1 := by
  unfold aliveCount
  rw [(h.filter _).length_eq]

theorem aliveCount_face (g : Grid) (c : Cell) :
    aliveCount g c faceOffsets = liveNeighbours g c 1 :=
  aliveCount_perm g c faceOffsets_perm

theorem aliveCount_edge (g : Grid) (c : Cell) :
    aliveCount g c edgeOffsets = liveNeighbours g c 2 :=
  aliveCount_perm g c edgeOffsets_perm

theorem aliveCount_corner (g : Grid) (c : Cell) :
    aliveCount g c cornerOffsets = liveNeighbours g c 3 :=
  aliveCount_perm g c cornerOffsets_perm

/-! ## The claims -/

theorem read_of_get? {g : Grid} {c : Cell} {v : Int} (h : g.get? c.1 c.2.1 c.2.2 = some v) :
    g.read c = v := by
  simp [Grid.read, h]

theorem nextState_of_pos (R : RuleTable) {g : Grid} {c : Cell} (h : g.read c > 0) :
    nextState R g c = g.read c - 1 := by
  simp [nextState, h]

/-- C1 (birth law).  For every 52 x 52 x 52 state whose rule table is the one
`InitCA` builds and every interior cell holding 0, one tick (`ProcessCA` then
`Swap`) succeeds and leaves in that cell 4 when `f > 0` and `f + e + c = 4`, and 0
otherwise, where `f`, `e`, `c` count the cells with state `> 0` among the
neighbours offset by one unit along exactly 1, 2 and 3 axes; there are 6, 12
and 8 such offsets. -/
theorem birth_law (s : State) (hs : s.WF)
    (hR : (InitCA programStart).map (fun t => t.Rule) = some s.Rule)
    (c : Cell) (hc : Interior c) (hdead : s.mat1.get? c.1 c.2.1 c.2.2 = some 0) :
    ((offsetsAlong 1).length = 6 ∧ (offsetsAlong 2).length = 12 ∧ (offsetsAlong 3).length = 8) ∧
    ∃ s1, tick s = some s1 ∧
      s1.mat1.get? c.1 c.2.1 c.2.2 =
        some (if liveNeighbours s.mat1 c 1 > 0 ∧
                liveNeighbours s.mat1 c 1 + liveNeighbours s.mat1 c 2 +
                  liveNeighbours s.mat1 c 3 = 4
              then 4 else 0) := by
  refine ⟨by decide, _, tick_eq hs, ?_⟩
  rw [Grid.get?_eq_read (tick_WF hs).1 hc.inRange, tick_read hs, if_pos hc, Rule_of_InitCA hR,
    nextState_initRule, read_of_get? hdead, aliveCount_face, aliveCount_edge, aliveCount_corner]
  simp

theorem ticks_decay (c : Cell) (hc : Interior c) (j : Nat) :
    ∀ (s : State) (v : Int), s.WF → s.mat1.read c = v → (j : Int) ≤ v →
      ∃ sj, ticks j s = some sj ∧ sj.WF ∧ sj.mat1.read c = v - j := by
  induction j with
  | zero =>
    intro s v hs hv _
    exact ⟨s, rfl, hs, by simpa using hv⟩
  | succ j ih =>
    intro s v hs hv hj
    have hpos : s.mat1.read c > 0 := by rw [hv]; omega
    have hnext := tick_read hs c
    rw [if_pos hc, nextState_of_pos _ hpos, hv] at hnext
    obtain ⟨sj, h1, h2, h3⟩ := ih _ (v - 1) (tick_WF hs) hnext (by omega)
    refine ⟨sj, ?_, h2, ?_⟩
    · simp only [ticks, tick_eq hs, Option.some_bind]
      exact h1
    · rw [h3]; push_cast; ring

/-- C2 (decay law).  For every 52 x 52 x 52 state, every interior cell holding
`k` in `{1, 2, 3, 4}` and every `j` with `0 ≤ j ≤ k`, whatever the other cells
and the rule table hold, `j` ticks succeed and leave `k - j` in the cell; the
value is 0 exactly when `j = k`. -/
theorem decay_law (s : State) (hs : s.WF) (c : Cell) (hc : Interior c) (k j : Nat)
    (_hk1 : 1 ≤ k) (_hk4 : k ≤ 4) (hj : j ≤ k)
    (hcell : s.mat1.get? c.1 c.2.1 c.2.2 = some (k : Int)) :
    ∃ sj, ticks j s = some sj ∧
      sj.mat1.get? c.1 c.2.1 c.2.2 = some ((k : Int) - (j : Int)) ∧
      (j < k → (0 : Int) < (k : Int) - (j : Int)) ∧ (j = k → (k : Int) - (j : Int) = 0) := by
  obtain ⟨sj, h1, h2, h3⟩ := ticks_decay c hc j s k hs (read_of_get? hcell) (by omega)
  refine ⟨sj, h1, ?_, fun h => by omega, fun h => by omega⟩
  rw [Grid.get?_eq_read h2.1 hc.inRange, h3]

theorem not_interior_of_onShell {c : Cell} (h : OnShell c) : ¬ Interior c := by
  simp only [OnShell] at h
  simp only [Interior, GridX, GridY, GridZ]
  omega

theorem not_mem_seedCells_of_not_interior {c : Cell} (h : ¬ Interior c) : c ∉ seedCells := by
  intro hc
  have := mem_seedCells.1 hc
  apply h
  simp only [Interior, GridX, GridY, GridZ]
  omega

theorem nextState_initRule_bounds {g : Grid} {c : Cell} (h : 0 ≤ g.read c ∧ g.read c ≤ 4) :
    0 ≤ nextState initState.Rule g c ∧ nextState initState.Rule g c ≤ 4 := by
  rw [nextState_initRule]
  split_ifs <;> omega

theorem Inv_initState : Inv initState := by
  refine ⟨initState_WF, rfl, fun c _ => ?_, fun c _ hc => ?_⟩
  · rw [initState_mat1_read, initState_mat2_read]
    split_ifs <;> omega
  · rw [initState_mat1_read, initState_mat2_read,
      if_neg (not_mem_seedCells_of_not_interior hc)]
    exact ⟨rfl, rfl⟩

theorem Inv_ProcessCA {s s1 : State} (hs : Inv s) (h : ProcessCA s = some s1) : Inv s1 := by
  obtain ⟨hw, hR, hrange, hshell⟩ := hs
  rw [ProcessCA_eq hw] at h
  obtain rfl := Option.some.inj h
  refine ⟨ProcessCA_WF hw, hR, fun c hc => ⟨(hrange c hc).1, ?_⟩, fun c hc hn => ⟨(hshell c hc hn).1, ?_⟩⟩
  · show 0 ≤ (s.mat2.writeAll interiorCells (nextState s.Rule s.mat1)).read c ∧
      (s.mat2.writeAll interiorCells (nextState s.Rule s.mat1)).read c ≤ 4
    rw [read_writeAll_interior hw.2.1]
    by_cases hi : Interior c
    · rw [if_pos hi, hR]
      exact nextState_initRule_bounds (hrange c hc).1
    · rw [if_neg hi]
      exact (hrange c hc).2
  · show (s.mat2.writeAll interiorCells (nextState s.Rule s.mat1)).read c = 0
    rw [read_writeAll_interior hw.2.1, if_neg hn]
    exact (hshell c hc hn).2

theorem Inv_Swap {s s1 : State} (hs : Inv s) (h : Swap s = some s1) : Inv s1 := by
  obtain ⟨hw, hR, hrange, hshell⟩ := hs
  rw [Swap_eq hw] at h
  obtain rfl := Option.some.inj h
  refine ⟨Swap_WF hw, hR, fun c hc => ⟨?_, (hrange c hc).2⟩, fun c hc hn => ⟨?_, (hshell c hc hn).2⟩⟩
  · show 0 ≤ (s.mat1.writeAll interiorCells s.mat2.read).read c ∧
      (s.mat1.writeAll interiorCells s.mat2.read).read c ≤ 4
    rw [read_writeAll_interior hw.1]
    by_cases hi : Interior c
    · rw [if_pos hi]
      exact (hrange c hc).2
    · rw [if_neg hi]
      exact (hrange c hc).1
  · show (s.mat1.writeAll interiorCells s.mat2.read).read c = 0
    rw [read_writeAll_interior hw.1, if_neg hn]
    exact (hshell c hc hn).1

theorem Inv_of_Reachable {s : State} (h : Reachable s) : Inv s := by
  induction h with
  | init h0 =>
    rw [InitCA_eq] at h0
    obtain rfl := Option.some.inj h0
    exact Inv_initState
  | processCA _ hstep ih => exact Inv_ProcessCA ih hstep
  | swap _ hstep ih => exact Inv_Swap ih hstep

/-- C3 (boundary invariant).  In every state reachable from the state `InitCA`
produces by calls of `ProcessCA` and `Swap`, every cell of `mat1` and of `mat2`
with some coordinate equal to 0 or 51 holds 0. -/
theorem boundary_invariant (s : State) (h : Reachable s) (c : Cell)
    (hin : InRange 52 52 52 c) (hshell : OnShell c) :
    s.mat1.get? c.1 c.2.1 c.2.2 = some 0 ∧ s.mat2.get? c.1 c.2.1 c.2.2 = some 0 := by
  obtain ⟨hw, -, -, hzero⟩ := Inv_of_Reachable h
  have := hzero c hin (not_interior_of_onShell hshell)
  rw [Grid.get?_eq_read hw.1 hin, Grid.get?_eq_read hw.2.1 hin, this.1, this.2]
  exact ⟨rfl, rfl⟩

/-- C5 (cell-state range invariant).  In every state reachable from the state
`InitCA` produces by calls of `ProcessCA` and `Swap`, both buffers are
52 x 52 x 52 and every cell of `mat1` and of `mat2` holds an integer in `[0, 4]`. -/
theorem cell_range_invariant (s : State) (h : Reachable s) :
    s.mat1.WF 52 52 52 ∧ s.mat2.WF 52 52 52 ∧
    ∀ c, InRange 52 52 52 c →
      (∃ v, s.mat1.get? c.1 c.2.1 c.2.2 = some v ∧ 0 ≤ v ∧ v ≤ 4) ∧
      (∃ v, s.mat2.get? c.1 c.2.1 c.2.2 = some v ∧ 0 ≤ v ∧ v ≤ 4) := by
  obtain ⟨hw, -, hrange, -⟩ := Inv_of_Reachable h
  refine ⟨hw.1, hw.2.1, fun c hc => ⟨⟨_, Grid.get?_eq_read hw.1 hc, (hrange c hc).1⟩,
    ⟨_, Grid.get?_eq_read hw.2.1 hc, (hrange c hc).2⟩⟩⟩

theorem edgeOnlyState_WF : edgeOnlyState.WF := by
  unfold State.WF
  simp only [edgeOnlyState]
  exact ⟨Grid.writeAll_WF _ _ (zeroGrid_WF 52 52 52), zeroGrid_WF 52 52 52, initState_WF.2.2⟩

theorem edgeOnlyState_read (c : Cell) :
    edgeOnlyState.mat1.read c = if c ∈ edgeOnlyCells then 1 else 0 := by
  have hin : ∀ d ∈ edgeOnlyCells, InRange 52 52 52 d := by decide
  simp only [edgeOnlyState]
  rw [Grid.read_writeAll edgeOnlyCells _ (zeroGrid_WF 52 52 52) hin, zeroGrid_read]

theorem edgeOnlyState_counts :
    aliveCount edgeOnlyState.mat1 (25, 25, 25) faceOffsets = 0 ∧
    aliveCount edgeOnlyState.mat1 (25, 25, 25) edgeOffsets = 4 ∧
    aliveCount edgeOnlyState.mat1 (25, 25, 25) cornerOffsets = 0 := by
  simp only [aliveCount, edgeOnlyState_read]
  decide

/-- C4, refuted as stated.  The rule table `InitCA` builds has the populated
entry `Rule[0][0][4][0] = 4`; and in `edgeOnlyState` the dead interior cell
`(25, 25, 25)` has face count 0, edge count 4 and corner count 0, `ProcessCA`
leaves 0 for it in `mat2`, while the table lookup at its counts gives 4. -/
theorem rule_face_zero_populated :
    (InitCA programStart).bind (fun s => s.Rule.get? 0 0 4 0) = some 4 ∧
    edgeOnlyState.mat1.get? 25 25 25 = some 0 ∧
    aliveCount edgeOnlyState.mat1 (25, 25, 25) faceOffsets = 0 ∧
    (ProcessCA edgeOnlyState).bind (fun s => s.mat2.get? 25 25 25) = some 0 ∧
    edgeOnlyState.Rule.get? 0 0 (aliveCount edgeOnlyState.mat1 (25, 25, 25) edgeOffsets)
      (aliveCount edgeOnlyState.mat1 (25, 25, 25) cornerOffsets) = some 4 := by
  have hc : Interior (25, 25, 25) := by decide
  have hread : edgeOnlyState.mat1.read (25, 25, 25) = 0 := by
    rw [edgeOnlyState_read]; decide
  refine ⟨?_, ?_, edgeOnlyState_counts.1, ?_, ?_⟩
  · rw [InitCA_eq, Option.some_bind]
    exact initState_Rule_zero (q := (0, 4, 0)) (by decide)
  · rw [Grid.get?_eq_read edgeOnlyState_WF.1 (c := (25, 25, 25)) (by decide), hread]
  · rw [ProcessCA_eq edgeOnlyState_WF, Option.some_bind]
    show (edgeOnlyState.mat2.writeAll interiorCells
      (nextState edgeOnlyState.Rule edgeOnlyState.mat1)).get? 25 25 25 = some 0
    rw [Grid.get?_eq_read (Grid.writeAll_WF _ _ edgeOnlyState_WF.2.1) (c := (25, 25, 25))
      (by decide), read_writeAll_interior edgeOnlyState_WF.2.1, if_pos hc]
    simp [nextState, hread, edgeOnlyState_counts.1]
  · rw [edgeOnlyState_counts.2.1, edgeOnlyState_counts.2.2]
    exact initState_Rule_zero (q := (0, 4, 0)) (by decide)

/-- C4, amended.  In the rule table `InitCA` builds, for `e` in `[0, 12]` and `c`
in `[0, 8]`, `Rule[0][0][e][c]` is 4 when `e + c = 4` and 0 otherwise.  For every
52 x 52 x 52 state with that table and every dead interior cell with face
count 0, `ProcessCA` succeeds and leaves 0 for the cell in `mat2`; the table
lookup at the cell's edge and corner counts gives 0 exactly when they do not
sum to 4. -/
theorem rule_face_zero_entries :
    (∀ e c : Int, 0 ≤ e → e ≤ 12 → 0 ≤ c → c ≤ 8 →
      (InitCA programStart).bind (fun s => s.Rule.get? 0 0 e c) =
        some (if e + c = 4 then 4 else 0)) ∧
    (∀ s : State, s.WF → (InitCA programStart).map (fun t => t.Rule) = some s.Rule →
      ∀ c : Cell, Interior c → s.mat1.get? c.1 c.2.1 c.2.2 = some 0 →
        aliveCount s.mat1 c faceOffsets = 0 →
        (∃ s1, ProcessCA s = some s1 ∧ s1.mat2.get? c.1 c.2.1 c.2.2 = some 0) ∧
        (s.Rule.get? 0 0 (aliveCount s.mat1 c edgeOffsets) (aliveCount s.mat1 c cornerOffsets) =
            some 0 ↔
          aliveCount s.mat1 c edgeOffsets + aliveCount s.mat1 c cornerOffsets ≠ 4)) := by
  constructor
  · intro e c he0 he1 hc0 hc1
    rw [InitCA_eq, Option.some_bind]
    have h := initState_Rule_zero (q := (0, e, c)) (by simp only [InRange]; omega)
    simpa using h
  · intro s hs hR c hc hdead hface
    constructor
    · refine ⟨_, ProcessCA_eq hs, ?_⟩
      show (s.mat2.writeAll interiorCells (nextState s.Rule s.mat1)).get? c.1 c.2.1 c.2.2 = some 0
      rw [Grid.get?_eq_read (Grid.writeAll_WF _ _ hs.2.1) hc.inRange,
        read_writeAll_interior hs.2.1, if_pos hc]
      simp [nextState, read_of_get? hdead, hface]
    · have hele : aliveCount s.mat1 c edgeOffsets ≤ ((12 : Nat) : Int) :=
        aliveCount_le s.mat1 c edgeOffsets
      have hcle : aliveCount s.mat1 c cornerOffsets ≤ ((8 : Nat) : Int) :=
        aliveCount_le s.mat1 c cornerOffsets
      have he0 := aliveCount_nonneg s.mat1 c edgeOffsets
      have hc0 := aliveCount_nonneg s.mat1 c cornerOffsets
      have h := initState_Rule_zero
        (q := (0, aliveCount s.mat1 c edgeOffsets, aliveCount s.mat1 c cornerOffsets))
        (by simp only [InRange]; omega)
      simp only [zero_add] at h
      rw [Rule_of_InitCA hR, h]
      by_cases h4 : aliveCount s.mat1 c edgeOffsets + aliveCount s.mat1 c cornerOffsets = 4
      · simp [h4]
      · simp [h4]

/-- C7 (commit idempotence).  For every 52 x 52 x 52 state, `Swap` succeeds and a
second `Swap` right after it succeeds and returns the same state, both buffers
included. -/
theorem swap_idempotent (s : State) (hs : s.WF) :
    ∃ s1, Swap s = some s1 ∧ Swap s1 = some s1 := by
  refine ⟨_, Swap_eq hs, ?_⟩
  rw [Swap_eq (Swap_WF hs)]
  simp only [writeAll_interior_idem hs.1]

theorem writeAll_order {g : Grid} (hg : g.WF 52 52 52) (val : Cell → Int) {order : List Cell}
    (h : ∀ c, c ∈ order ↔ Interior c) :
    g.writeAll order val = g.writeAll interiorCells val := by
  have hin : ∀ c ∈ order, InRange 52 52 52 c := fun c hc => ((h c).1 hc).inRange
  apply Grid.ext_read (Grid.writeAll_WF _ _ hg) (Grid.writeAll_WF _ _ hg)
  intro c _
  rw [Grid.read_writeAll order val hg hin, read_writeAll_interior hg]
  simp only [h]

theorem nextState_eq_spec (R : RuleTable) (g : Grid) {c : Cell} (h : 0 ≤ g.read c) :
    nextState R g c = specNextState R g c := by
  have hf0 := aliveCount_nonneg g c faceOffsets
  unfold nextState specNextState
  rw [← aliveCount_face, ← aliveCount_edge, ← aliveCount_corner]
  by_cases hpos : g.read c > 0
  · simp [hpos]
  · have hzero : g.read c = 0 := by omega
    by_cases hf : aliveCount g c faceOffsets = 0
    · simp [hzero, hf]
    · have hfpos : aliveCount g c faceOffsets > 0 := by omega
      simp [hzero, hf, hfpos]

/-- C8 (buffer isolation).  For every 52 x 52 x 52 state, `ProcessCA` succeeds,
leaves `mat1` and `Rule` unchanged, leaves in each interior cell of `mat2` the
value of the per-cell function `nextState` on the `mat1` given to the call,
and leaves the other cells of `mat2` unchanged; on a cell whose state is not
negative `nextState` is the per-cell function of the spec (countdown if the
state is `> 0`, else classification and rule lookup); and the loop run over the
interior cells in any other order returns the same state. -/
theorem buffer_isolation (s : State) (hs : s.WF) :
    ∃ s1, ProcessCA s = some s1 ∧ s1.mat1 = s.mat1 ∧ s1.Rule = s.Rule ∧
      (∀ c, Interior c → s1.mat2.get? c.1 c.2.1 c.2.2 = some (nextState s.Rule s.mat1 c)) ∧
      (∀ c, ¬ Interior c → s1.mat2.get? c.1 c.2.1 c.2.2 = s.mat2.get? c.1 c.2.1 c.2.2) ∧
      (∀ c, 0 ≤ s.mat1.read c → nextState s.Rule s.mat1 c = specNextState s.Rule s.mat1 c) ∧
      (∀ order : List Cell, order.Perm interiorCells → ProcessCAIn order s = some s1) := by
  refine ⟨_, ProcessCA_eq hs, rfl, rfl, fun c hc => ?_, fun c hc => ?_,
    fun c hc => nextState_eq_spec _ _ hc, fun order hp => ?_⟩
  · show (s.mat2.writeAll interiorCells (nextState s.Rule s.mat1)).get? c.1 c.2.1 c.2.2 = _
    rw [Grid.get?_eq_read (Grid.writeAll_WF _ _ hs.2.1) hc.inRange,
      read_writeAll_interior hs.2.1, if_pos hc]
  · show (s.mat2.writeAll interiorCells (nextState s.Rule s.mat1)).get? c.1 c.2.1 c.2.2 = _
    have hw := Grid.writeAll_WF interiorCells (nextState s.Rule s.mat1) hs.2.1
    by_cases hin : InRange 52 52 52 c
    · rw [Grid.get?_eq_read hw hin, Grid.get?_eq_read hs.2.1 hin,
        read_writeAll_interior hs.2.1, if_neg hc]
    · rw [Grid.get?_eq_none hw hin, Grid.get?_eq_none hs.2.1 hin]
  · have hmem : ∀ c, c ∈ order ↔ Interior c := fun c => by rw [hp.mem_iff, mem_interiorCells]
    unfold ProcessCAIn
    rw [forEach_processCell (fun c hc => (hmem c).1 hc) hs, writeAll_order hs.2.1 _ hmem]

/-- C9 (index safety).  For every state with 52 x 52 x 52 buffers and a
5 x 7 x 13 x 9 rule table: `ProcessCA` and `Swap` return a state, so no checked
access in them fails; for every interior cell, the cell and its 26 neighbours
lie in `[0, 51]` on each axis; the three neighbour counts are computed without a
failed access and lie in `[0, 6]`, `[0, 12]` and `[0, 8]`; and when the cell is
dead and the face count is positive, the lookup `Rule[0][f][e][c]` succeeds with
`f` in `[1, 6]`. -/
theorem index_safety (s : State) (hs : s.WF) :
    (∃ s1, ProcessCA s = some s1) ∧ (∃ s2, Swap s = some s2) ∧
    ∀ c : Cell, Interior c →
      InRange 52 52 52 c ∧
      (∀ d ∈ faceOffsets ++ edgeOffsets ++ cornerOffsets, InRange 52 52 52 (shift c d)) ∧
      (∃ st, processCell c.1 c.2.1 c.2.2 s = some st) ∧
      (∃ st, swapCell c.1 c.2.1 c.2.2 s = some st) ∧
      ∃ f e k, countNeighbours s.mat1 c.1 c.2.1 c.2.2 faceOffsets 0 = some f ∧
        countNeighbours s.mat1 c.1 c.2.1 c.2.2 edgeOffsets 0 = some e ∧
        countNeighbours s.mat1 c.1 c.2.1 c.2.2 cornerOffsets 0 = some k ∧
        (0 ≤ f ∧ f ≤ 6) ∧ (0 ≤ e ∧ e ≤ 12) ∧ (0 ≤ k ∧ k ≤ 8) ∧
        (f > 0 → (1 ≤ f ∧ f ≤ 6) ∧ ∃ r, s.Rule.get? 0 f e k = some r) := by
  refine ⟨⟨_, ProcessCA_eq hs⟩, ⟨_, Swap_eq hs⟩, fun c hc => ?_⟩
  have hface := countNeighbours_eq hs.1 c faceOffsets
    (fun d hd => hc.shift_inRange (faceOffsets_unit d hd)) 0
  have hedge := countNeighbours_eq hs.1 c edgeOffsets
    (fun d hd => hc.shift_inRange (edgeOffsets_unit d hd)) 0
  have hcorner := countNeighbours_eq hs.1 c cornerOffsets
    (fun d hd => hc.shift_inRange (cornerOffsets_unit d hd)) 0
  have hfle : aliveCount s.mat1 c faceOffsets ≤ ((6 : Nat) : Int) :=
    aliveCount_le s.mat1 c faceOffsets
  have hele : aliveCount s.mat1 c edgeOffsets ≤ ((12 : Nat) : Int) :=
    aliveCount_le s.mat1 c edgeOffsets
  have hcle : aliveCount s.mat1 c cornerOffsets ≤ ((8 : Nat) : Int) :=
    aliveCount_le s.mat1 c cornerOffsets
  have hf0 := aliveCount_nonneg s.mat1 c faceOffsets
  have he0 := aliveCount_nonneg s.mat1 c edgeOffsets
  have hc0 := aliveCount_nonneg s.mat1 c cornerOffsets
  refine ⟨hc.inRange, fun d hd => ?_, ⟨_, processCell_eq hs hc⟩, ⟨_, swapCell_eq hs hc⟩,
    _, _, _, hface, hedge, hcorner, ?_, ?_, ?_, fun hf => ⟨?_, ?_⟩⟩
  · simp only [List.mem_append] at hd
    rcases hd with (hd | hd) | hd
    · exact hc.shift_inRange (faceOffsets_unit d hd)
    · exact hc.shift_inRange (edgeOffsets_unit d hd)
    · exact hc.shift_inRange (cornerOffsets_unit d hd)
  · omega
  · omega
  · omega
  · omega
  · exact RuleTable.lookup_isSome hs.2.2 (by omega) (by omega) (by omega) (by omega)

theorem repeatProcessCA_fixed {s : State} (h : ProcessCA s = some s) (n : Nat) :
    repeatProcessCA n s = some s := by
  induction n with
  | zero => rw [repeatProcessCA]
  | succ n ih => rw [repeatProcessCA, h, Option.some_bind, ih]

theorem ProcessCA_fixed {s : State} (hs : s.WF) :
    ProcessCA { s with mat2 := s.mat2.writeAll interiorCells (nextState s.Rule s.mat1) } =
      some { s with mat2 := s.mat2.writeAll interiorCells (nextState s.Rule s.mat1) } := by
  rw [ProcessCA_eq (ProcessCA_WF hs)]
  simp only [writeAll_interior_idem hs.2.1]

theorem repeatProcessCA_eq {s : State} (hs : s.WF) (n : Nat) :
    repeatProcessCA (n + 1) s = ProcessCA s := by
  rw [repeatProcessCA, ProcessCA_eq hs, Option.some_bind]
  exact repeatProcessCA_fixed (ProcessCA_fixed hs) n

/-- C10 (`ProcessCA` is idempotent).  For every 52 x 52 x 52 state, `ProcessCA`
succeeds and a second `ProcessCA` right after it returns the same state; the
result is the same from any state that has the same `mat1`, the same `Rule` and
the same cells of `mat2` outside the interior; and for every `n ≥ 1`, `n` calls
of `ProcessCA` followed by one `Swap` return the state that one `ProcessCA`
followed by `Swap` returns. -/
theorem processCA_idempotent (s : State) (hs : s.WF) :
    ∃ s1 s2, ProcessCA s = some s1 ∧ ProcessCA s1 = some s1 ∧
      (∀ t : State, t.WF → t.mat1 = s.mat1 → t.Rule = s.Rule →
        (∀ c, InRange 52 52 52 c → ¬ Interior c → t.mat2.read c = s.mat2.read c) →
        ProcessCA t = some s1) ∧
      tick s = some s2 ∧
      ∀ n : Nat, 1 ≤ n → (repeatProcessCA n s).bind Swap = some s2 := by
  refine ⟨_, _, ProcessCA_eq hs, ?_, fun t ht h1 hR h2 => ?_, tick_eq hs, fun n hn => ?_⟩
  · exact ProcessCA_fixed hs
  · rw [ProcessCA_eq ht, h1, hR]
    have hgrid : t.mat2.writeAll interiorCells (nextState s.Rule s.mat1) =
        s.mat2.writeAll interiorCells (nextState s.Rule s.mat1) := by
      apply Grid.ext_read (Grid.writeAll_WF _ _ ht.2.1) (Grid.writeAll_WF _ _ hs.2.1)
      intro c hc
      rw [read_writeAll_interior ht.2.1, read_writeAll_interior hs.2.1]
      by_cases hi : Interior c
      · simp [hi]
      · simp [hi, h2 c hc hi]
    rw [hgrid]
  · obtain ⟨m, rfl⟩ : ∃ m, n = m + 1 := ⟨n - 1, by omega⟩
    rw [repeatProcessCA_eq hs, ProcessCA_eq hs, Option.some_bind, Swap_eq (ProcessCA_WF hs)]

theorem clamp_bounds (x : Int) : 22 ≤ clamp x ∧ clamp x ≤ 28 := by
  unfold clamp
  split_ifs <;> omega

theorem clampCell_mem_probeCells (c : Cell) : clampCell c ∈ probeCells := by
  have h1 := clamp_bounds c.1
  have h2 := clamp_bounds c.2.1
  have h3 := clamp_bounds c.2.2
  simp only [probeCells, mem_loopCells, mem_intRange, clampCell]
  omega

theorem InSeed_shift_clamp (c : Cell) {d : Cell}
    (hd : (-1 ≤ d.1 ∧ d.1 ≤ 1) ∧ (-1 ≤ d.2.1 ∧ d.2.1 ≤ 1) ∧ (-1 ≤ d.2.2 ∧ d.2.2 ≤ 1)) :
    InSeed (shift (clampCell c) d) ↔ InSeed (shift c d) := by
  simp only [InSeed, shift, clampCell, clamp]
  split_ifs <;> omega

theorem seedCount_clamp (c : Cell) {offs : List Cell}
    (hoffs : ∀ d ∈ offs,
      (-1 ≤ d.1 ∧ d.1 ≤ 1) ∧ (-1 ≤ d.2.1 ∧ d.2.1 ≤ 1) ∧ (-1 ≤ d.2.2 ∧ d.2.2 ≤ 1)) :
    seedCount (clampCell c) offs = seedCount c offs := by
  unfold seedCount
  congr 2
  apply List.filter_congr
  intro d hd
  simp only [decide_eq_decide]
  exact InSeed_shift_clamp c (hoffs d hd)

theorem InSeed_clamp (c : Cell) : InSeed (clampCell c) ↔ InSeed c := by
  simp only [InSeed, clampCell, clamp]
  split_ifs <;> omega

theorem clamp_eq_iff {x v : Int} (hv : 22 < v ∧ v < 28) : clamp x = v ↔ x = v := by
  unfold clamp
  split_ifs <;> omega

theorem BornFirst_clamp (c : Cell) : BornFirst (clampCell c) ↔ BornFirst c := by
  simp only [BornFirst, clampCell, clamp_eq_iff (v := 23) (by decide),
    clamp_eq_iff (v := 24) (by decide), clamp_eq_iff (v := 26) (by decide),
    clamp_eq_iff (v := 27) (by decide)]

theorem seedNext_clamp (c : Cell) : seedNext (clampCell c) = seedNext c := by
  unfold seedNext
  rw [seedCount_clamp c faceOffsets_unit, seedCount_clamp c edgeOffsets_unit,
    seedCount_clamp c cornerOffsets_unit]
  simp only [InSeed_clamp]

theorem afterFirstTick_clamp (c : Cell) : afterFirstTick (clampCell c) = afterFirstTick c := by
  unfold afterFirstTick
  simp only [InSeed_clamp, BornFirst_clamp]

set_option maxRecDepth 100000 in
theorem seedNext_probe : ∀ c ∈ probeCells, seedNext c = afterFirstTick c := by
  decide

theorem seedNext_eq (c : Cell) : seedNext c = afterFirstTick c := by
  rw [← seedNext_clamp, ← afterFirstTick_clamp]
  exact seedNext_probe _ (clampCell_mem_probeCells c)

theorem mem_seedCells_iff (c : Cell) : c ∈ seedCells ↔ InSeed c := by
  rw [mem_seedCells, InSeed]

theorem initState_mat1_read_pos (c : Cell) : initState.mat1.read c > 0 ↔ InSeed c := by
  rw [initState_mat1_read]
  by_cases h : InSeed c <;> simp [h, mem_seedCells_iff]

theorem aliveCount_initState (c : Cell) (offs : List Cell) :
    aliveCount initState.mat1 c offs = seedCount c offs := by
  unfold aliveCount seedCount
  congr 2
  apply List.filter_congr
  intro d _
  simp only [decide_eq_decide]
  exact initState_mat1_read_pos (shift c d)

theorem nextState_initState (c : Cell) :
    nextState initState.Rule initState.mat1 c = seedNext c := by
  rw [nextState_initRule, aliveCount_initState, aliveCount_initState, aliveCount_initState,
    initState_mat1_read]
  unfold seedNext
  simp only [mem_seedCells_iff]
  by_cases h : InSeed c <;> simp [h]

theorem tick_initState_read (c : Cell) (hc : InRange 52 52 52 c) :
    ((InitCA programStart).bind tick).bind (fun s => s.mat1.get? c.1 c.2.1 c.2.2) =
      some (afterFirstTick c) := by
  rw [InitCA_eq, Option.some_bind, tick_eq initState_WF, Option.some_bind]
  show (initState.mat1.writeAll interiorCells
    (initState.mat2.writeAll interiorCells (nextState initState.Rule initState.mat1)).read).get?
      c.1 c.2.1 c.2.2 = _
  rw [Grid.get?_eq_read (tick_WF initState_WF).1 hc, tick_read initState_WF]
  by_cases hi : Interior c
  · rw [if_pos hi, nextState_initState, seedNext_eq]
  · rw [if_neg hi, initState_mat1_read, if_neg (not_mem_seedCells_of_not_interior hi)]
    have h1 : ¬ InSeed c := fun h => hi (by
      simp only [InSeed] at h
      simp only [Interior, GridX, GridY, GridZ]
      omega)
    have h2 : ¬ BornFirst c := fun h => hi (by
      simp only [BornFirst] at h
      simp only [Interior, GridX, GridY, GridZ]
      omega)
    simp [afterFirstTick, h1, h2]

theorem mem_bornCells (c : Cell) : c ∈ bornCells ↔ BornFirst c := by
  simp only [bornCells, List.mem_filter, decide_eq_true_eq, probeCells, mem_loopCells,
    mem_intRange]
  constructor
  · exact fun h => h.2
  · intro h
    refine ⟨?_, h⟩
    simp only [BornFirst] at h
    omega

theorem afterFirstTick_eq_three (c : Cell) : afterFirstTick c = 3 ↔ InSeed c := by
  unfold afterFirstTick
  split_ifs <;> simp [*]

theorem not_bornFirst_of_inSeed {c : Cell} (h : InSeed c) : ¬ BornFirst c := by
  simp only [InSeed] at h
  simp only [BornFirst]
  omega

theorem afterFirstTick_eq_four (c : Cell) : afterFirstTick c = 4 ↔ BornFirst c := by
  unfold afterFirstTick
  by_cases h : InSeed c
  · simp [h, not_bornFirst_of_inSeed h]
  · by_cases hb : BornFirst c <;> simp [h, hb]

/-- C6 (first tick from the seed).  From the state `InitCA` produces, one tick
succeeds; afterwards a cell of `mat1` holds 3 exactly when it lies in the seed
cube `[24, 26]^3` (27 cells), holds 4 exactly when it has one coordinate in
`{23, 27}` and the other two in `{24, 26}` (24 cells), and holds 0 otherwise. -/
theorem first_tick :
    ∃ s1, (InitCA programStart).bind tick = some s1 ∧
      (∀ c, InRange 52 52 52 c →
        s1.mat1.get? c.1 c.2.1 c.2.2 = some (afterFirstTick c) ∧
        (s1.mat1.get? c.1 c.2.1 c.2.2 = some 3 ↔ InSeed c) ∧
        (s1.mat1.get? c.1 c.2.1 c.2.2 = some 4 ↔ BornFirst c) ∧
        (¬ InSeed c → ¬ BornFirst c → s1.mat1.get? c.1 c.2.1 c.2.2 = some 0)) ∧
      (seedCells.length = 27 ∧ ∀ c, c ∈ seedCells ↔ InSeed c) ∧
      (bornCells.length = 24 ∧ bornCells.Nodup ∧ ∀ c, c ∈ bornCells ↔ BornFirst c) := by
  have hsome : ∃ s1, (InitCA programStart).bind tick = some s1 := by
    rw [InitCA_eq, Option.some_bind, tick_eq initState_WF]
    exact ⟨_, rfl⟩
  obtain ⟨s1, h1⟩ := hsome
  refine ⟨s1, h1, fun c hc => ?_, ⟨?_, mem_seedCells_iff⟩, ?_, ?_, mem_bornCells⟩
  · have h := tick_initState_read c hc
    rw [h1, Option.some_bind] at h
    rw [h]
    refine ⟨rfl, ?_, ?_, fun hs hb => ?_⟩
    · rw [Option.some_inj, afterFirstTick_eq_three]
    · rw [Option.some_inj, afterFirstTick_eq_four]
    · simp [afterFirstTick, hs, hb]
  · simp only [seedCells]; decide
  · decide
  · decide

/-! ## The claims at concrete inputs -/

theorem initState_get? (c : Cell) (hc : InRange 52 52 52 c) :
    initState.mat1.get? c.1 c.2.1 c.2.2 = some (if InSeed c then 4 else 0) := by
  rw [Grid.get?_eq_read initState_WF.1 hc, initState_mat1_read]
  simp only [mem_seedCells_iff]

theorem Rule_initState : (InitCA programStart).map (fun t => t.Rule) = some initState.Rule := by
  rw [InitCA_eq]; rfl

theorem liveNeighbours_initState (c : Cell) :
    liveNeighbours initState.mat1 c 1 = seedCount c faceOffsets ∧
    liveNeighbours initState.mat1 c 2 = seedCount c edgeOffsets ∧
    liveNeighbours initState.mat1 c 3 = seedCount c cornerOffsets := by
  rw [← aliveCount_face, ← aliveCount_edge, ← aliveCount_corner]
  exact ⟨aliveCount_initState _ _, aliveCount_initState _ _, aliveCount_initState _ _⟩

/-- C1 at the seeded state: the dead cell `(23, 24, 24)` has one live face
neighbour, two live edge neighbours and one live corner neighbour, and holds 4
after one tick. -/
theorem birth_law_witness :
    initState.WF ∧ Interior (23, 24, 24) ∧ initState.mat1.get? 23 24 24 = some 0 ∧
    liveNeighbours initState.mat1 (23, 24, 24) 1 = 1 ∧
    liveNeighbours initState.mat1 (23, 24, 24) 2 = 2 ∧
    liveNeighbours initState.mat1 (23, 24, 24) 3 = 1 ∧
    ∃ s1, tick initState = some s1 ∧ s1.mat1.get? 23 24 24 = some 4 := by
  have hdead : initState.mat1.get? 23 24 24 = some 0 :=
    initState_get? (23, 24, 24) (by decide)
  have hcount := liveNeighbours_initState (23, 24, 24)
  have hf : liveNeighbours initState.mat1 (23, 24, 24) 1 = 1 := by rw [hcount.1]; decide
  have he : liveNeighbours initState.mat1 (23, 24, 24) 2 = 2 := by rw [hcount.2.1]; decide
  have hk : liveNeighbours initState.mat1 (23, 24, 24) 3 = 1 := by rw [hcount.2.2]; decide
  obtain ⟨-, s1, h1, h2⟩ :=
    birth_law initState initState_WF Rule_initState (23, 24, 24) (by decide) hdead
  rw [hf, he, hk] at h2
  exact ⟨initState_WF, by decide, hdead, hf, he, hk, s1, h1, h2⟩

/-- C2 at the seeded state: the cell `(25, 25, 25)` holds 4 and holds 1 after
three ticks. -/
theorem decay_law_witness :
    initState.mat1.get? 25 25 25 = some 4 ∧
    ∃ sj, ticks 3 initState = some sj ∧ sj.mat1.get? 25 25 25 = some 1 := by
  have hcell : initState.mat1.get? 25 25 25 = some ((4 : Nat) : Int) :=
    initState_get? (25, 25, 25) (by decide)
  obtain ⟨sj, h1, h2, -⟩ :=
    decay_law initState initState_WF (25, 25, 25) (by decide) 4 3 (by decide) (by decide)
      (by decide) hcell
  exact ⟨hcell, sj, h1, h2⟩

/-- C3 after the first tick: the shell cell `(0, 10, 51)` holds 0 in both
buffers. -/
theorem boundary_invariant_witness :
    ((InitCA programStart).bind tick).bind (fun s => s.mat1.get? 0 10 51) = some 0 ∧
    ((InitCA programStart).bind tick).bind (fun s => s.mat2.get? 0 10 51) = some 0 := by
  have hreach := Reachable.swap
    (Reachable.processCA (Reachable.init InitCA_eq) (ProcessCA_eq initState_WF))
    (Swap_eq (ProcessCA_WF initState_WF))
  have h := boundary_invariant _ hreach (0, 10, 51) (by decide) (by decide)
  rw [InitCA_eq, Option.some_bind, tick_eq initState_WF, Option.some_bind, Option.some_bind]
  exact h

/-- C4, amended, at `e = 1`, `c = 3`: the entry `Rule[0][0][1][3]` is 4. -/
theorem rule_face_zero_entries_witness :
    (InitCA programStart).bind (fun s => s.Rule.get? 0 0 1 3) = some 4 :=
  rule_face_zero_entries.1 1 3 (by decide) (by decide) (by decide) (by decide)

/-- C5 after the first tick: the cell `(25, 25, 25)` of each buffer holds a
value in `[0, 4]`. -/
theorem cell_range_invariant_witness :
    ∃ s1, (InitCA programStart).bind tick = some s1 ∧
      (∃ v, s1.mat1.get? 25 25 25 = some v ∧ 0 ≤ v ∧ v ≤ 4) ∧
      (∃ v, s1.mat2.get? 25 25 25 = some v ∧ 0 ≤ v ∧ v ≤ 4) := by
  have hreach := Reachable.swap
    (Reachable.processCA (Reachable.init InitCA_eq) (ProcessCA_eq initState_WF))
    (Swap_eq (ProcessCA_WF initState_WF))
  have h := (cell_range_invariant _ hreach).2.2 (25, 25, 25) (by decide)
  refine ⟨_, ?_, h⟩
  rw [InitCA_eq, Option.some_bind, tick_eq initState_WF]

/-- C6 at the cells `(25, 25, 25)`, `(23, 24, 24)` and `(23, 25, 25)`: after the
first tick they hold 3, 4 and 0. -/
theorem first_tick_witness :
    ∃ s1, (InitCA programStart).bind tick = some s1 ∧
      s1.mat1.get? 25 25 25 = some 3 ∧ s1.mat1.get? 23 24 24 = some 4 ∧
      s1.mat1.get? 23 25 25 = some 0 := by
  obtain ⟨s1, h1, h2, -⟩ := first_tick
  exact ⟨s1, h1, (h2 (25, 25, 25) (by decide)).1, (h2 (23, 24, 24) (by decide)).1,
    (h2 (23, 25, 25) (by decide)).1⟩

/-- C7 at the seeded state. -/
theorem swap_idempotent_witness :
    initState.WF ∧ ∃ s1, Swap initState = some s1 ∧ Swap s1 = some s1 :=
  ⟨initState_WF, swap_idempotent initState initState_WF⟩

/-- C8 at the seeded state: `ProcessCA` leaves `mat1` unchanged, 4 in the cell
`(23, 24, 24)` of `mat2`, and the interior cells visited in reverse order give
the same state. -/
theorem buffer_isolation_witness :
    initState.WF ∧ ∃ s1, ProcessCA initState = some s1 ∧ s1.mat1 = initState.mat1 ∧
      s1.mat2.get? 23 24 24 = some 4 ∧ ProcessCAIn interiorCells.reverse initState = some s1 := by
  obtain ⟨s1, h1, h2, -, h4, -, -, h6⟩ := buffer_isolation initState initState_WF
  refine ⟨initState_WF, s1, h1, h2, ?_, h6 _ (List.reverse_perm _)⟩
  have h := h4 (23, 24, 24) (by decide)
  rw [nextState_initState, seedNext_eq] at h
  exact h

/-- C9 at the seeded state and the interior corner cell `(50, 50, 50)`. -/
theorem index_safety_witness :
    initState.WF ∧ (∃ s1, ProcessCA initState = some s1) ∧ (∃ s2, Swap initState = some s2) ∧
    InRange 52 52 52 (shift (50, 50, 50) (1, 1, 1)) ∧
    ∃ st, processCell 50 50 50 initState = some st := by
  obtain ⟨h1, h2, h3⟩ := index_safety initState initState_WF
  obtain ⟨-, h4, h5, -⟩ := h3 (50, 50, 50) (by decide)
  exact ⟨initState_WF, h1, h2, h4 (1, 1, 1) (by decide), h5⟩

/-- C10 at the seeded state, with three calls of `ProcessCA` before `Swap`. -/
theorem processCA_idempotent_witness :
    initState.WF ∧ ∃ s1 s2, ProcessCA initState = some s1 ∧ ProcessCA s1 = some s1 ∧
      tick initState = some s2 ∧ (repeatProcessCA 3 initState).bind Swap = some s2 := by
  obtain ⟨s1, s2, h1, h2, -, h4, h5⟩ := processCA_idempotent initState initState_WF
  exact ⟨initState_WF, s1, s2, h1, h2, h4, h5 3 (by decide)⟩

end CA3D
